import Mathlib

/-!
Verification of the evaluator and parser of a small Scheme interpreter
(evaluation.cpp and parser.cpp).  The C++ values, expressions, syntax
objects, environment and store are shallowly embedded; the arithmetic
helpers, the primitive dispatch, the parser and a fuel-indexed evaluator
are translated function by function from the source.  C++ `int` is
modelled as ℤ (signed overflow is undefined behaviour in the source, and
the only checked overflow, in `expt`, carries its explicit 32-bit bounds
into the model).
-/

namespace Scheme

/-- Upper bound INT_MAX of the 32-bit signed range used by `Expt::evalRator`. -/
def intMax : ℤ := 2147483647

/-- Lower bound INT_MIN of the 32-bit signed range used by `Expt::evalRator`. -/
def intMin : ℤ := -2147483648

/-- Modelled from the spec: the helper `int gcd(int, int)` is defined in
expr.cpp, which is not among the provided sources.  Per §4.2 the
normalization step computes `g = gcd(num, den)` with the gcd of two zeros
taken to be zero, and produces `gcd(|p|, q) = 1`; we model it as the
nonnegative gcd of the two arguments. -/
def gcd (a b : ℤ) : ℤ := (Int.gcd a b : ℤ)

/-- Syntax objects delivered by the reader (syntax.hpp): Number,
RationalSyntax, StringSyntax, SymbolSyntax, TrueSyntax, FalseSyntax, List. -/
inductive Stx where
  | num (n : ℤ)
  | rat (numerator denominator : ℤ)
  | strLit (s : String)
  | sym (s : String)
  | tru
  | fls
  | list (stxs : List Stx)

/-- The ExprType enumeration from Def.hpp, as used by the parser's dispatch. -/
inductive ExprType where
  | E_PLUS | E_MINUS | E_MUL | E_DIV | E_MODULO | E_EXPT
  | E_LT | E_LE | E_EQ | E_GE | E_GT
  | E_CONS | E_CAR | E_CDR | E_LIST | E_SETCAR | E_SETCDR
  | E_NOT | E_AND | E_OR | E_EQQ
  | E_BOOLQ | E_INTQ | E_NULLQ | E_PAIRQ | E_PROCQ | E_SYMBOLQ | E_LISTQ | E_STRINGQ
  | E_VOID | E_EXIT | E_DISPLAY
  | E_BEGIN | E_QUOTE | E_IF | E_COND | E_LAMBDA | E_DEFINE | E_LET | E_LETREC | E_SET
deriving DecidableEq

/-- Expression nodes (expr.hpp), one constructor per C++ class. -/
inductive Expr where
  | Fixnum (n : ℤ)
  | RationalNum (numerator denominator : ℤ)
  | StringExpr (s : String)
  | True
  | False
  | MakeVoid
  | Exit
  | Var (x : String)
  | Plus (rand1 rand2 : Expr)
  | Minus (rand1 rand2 : Expr)
  | Mult (rand1 rand2 : Expr)
  | Div (rand1 rand2 : Expr)
  | Modulo (rand1 rand2 : Expr)
  | Expt (rand1 rand2 : Expr)
  | PlusVar (rands : List Expr)
  | MinusVar (rands : List Expr)
  | MultVar (rands : List Expr)
  | DivVar (rands : List Expr)
  | Less (rand1 rand2 : Expr)
  | LessEq (rand1 rand2 : Expr)
  | Equal (rand1 rand2 : Expr)
  | GreaterEq (rand1 rand2 : Expr)
  | Greater (rand1 rand2 : Expr)
  | LessVar (rands : List Expr)
  | LessEqVar (rands : List Expr)
  | EqualVar (rands : List Expr)
  | GreaterEqVar (rands : List Expr)
  | GreaterVar (rands : List Expr)
  | Cons (rand1 rand2 : Expr)
  | Car (rand : Expr)
  | Cdr (rand : Expr)
  | ListFunc (rands : List Expr)
  | SetCar (rand1 rand2 : Expr)
  | SetCdr (rand1 rand2 : Expr)
  | IsList (rand : Expr)
  | IsEq (rand1 rand2 : Expr)
  | IsBoolean (rand : Expr)
  | IsFixnum (rand : Expr)
  | IsNull (rand : Expr)
  | IsPair (rand : Expr)
  | IsProcedure (rand : Expr)
  | IsSymbol (rand : Expr)
  | IsString (rand : Expr)
  | Not (rand : Expr)
  | AndVar (rands : List Expr)
  | OrVar (rands : List Expr)
  | If (cond conseq alter : Expr)
  | Cond (clauses : List (List Expr))
  | Begin (es : List Expr)
  | Quote (s : Stx)
  | Display (rand : Expr)
  | Lambda (x : List String) (e : Expr)
  | Apply (rator : Expr) (rand : List Expr)
  | Define (var : String) (e : Expr)
  | Let (bind : List (String × Expr)) (body : Expr)
  | Letrec (bind : List (String × Expr)) (body : Expr)
  | Set (var : String) (e : Expr)

/-- The environment (`Assoc`): the frame chain as an ordered list of
(name, cell index) pairs; the innermost binding comes first.  Cells live in
a separate store so that `modify` through one alias of the chain is seen
through every alias, while prepending (`extend`) is not. -/
abbrev Assoc := List (String × Nat)

/-- Runtime values (value.hpp), one constructor per C++ class.  A Procedure
carries parameter list, body and the captured environment chain. -/
inductive Value where
  | integer (n : ℤ)
  | rational (numerator denominator : ℤ)
  | boolean (b : Bool)
  | strV (s : String)
  | symbol (s : String)
  | null
  | void
  | terminate
  | pair (car cdr : Value)
  | procedure (parameters : List String) (e : Expr) (env : Assoc)

/-- The cell store: cell index ↦ contents.  `none` is the null placeholder
value (`Value(nullptr)`) that `Letrec::eval` installs before the right-hand
sides run. -/
abbrev Store := List (Option Value)

/-- Modelled from the spec: `find` (§4.3) is defined outside the provided
sources.  It returns the innermost cell's contents; a missing name and a
null placeholder cell are both reported as `none`, exactly the two cases
`Var::eval` and `Define::eval` test with `matched_value.get() == nullptr`. -/
def find (x : String) : Assoc → Store → Option Value
  | [], _ => none
  | (y, i) :: rest, st => if y = x then st.getD i none else find x rest st

/-- Modelled from the spec: `extend` (§4.3) prepends a new innermost
binding without mutating the old chain; here it allocates a fresh cell. -/
def extend (x : String) (v : Option Value) (env : Assoc) (st : Store) :
    Assoc × Store :=
  ((x, st.length) :: env, st ++ [v])

/-- Modelled from the spec: `modify` (§4.3) overwrites the innermost cell
bound to the name; it is only called after `find` has succeeded, so the
no-op on a missing name is never exercised. -/
def modify (x : String) (v : Value) : Assoc → Store → Store
  | [], st => st
  | (y, i) :: rest, st => if y = x then st.set i (some v) else modify x v rest st

/-- Modelled from the spec: the primitive table of §6 (defined in Def.cpp,
not among the provided sources), mapping each primitive name to the
ExprType the parser dispatches on.  `and`/`or` are included here: §4.1 and
the live `E_AND`/`E_OR` cases of the parser's primitive dispatch give them
their any-arity behaviour (they also appear in the reserved-word table,
where the parser would reject them, but the primitive lookup runs first). -/
def primitives : List (String × ExprType) :=
  [("+", .E_PLUS), ("-", .E_MINUS), ("*", .E_MUL), ("/", .E_DIV),
   ("modulo", .E_MODULO), ("expt", .E_EXPT),
   ("<", .E_LT), ("<=", .E_LE), ("=", .E_EQ), (">=", .E_GE), (">", .E_GT),
   ("cons", .E_CONS), ("car", .E_CAR), ("cdr", .E_CDR), ("list", .E_LIST),
   ("set-car!", .E_SETCAR), ("set-cdr!", .E_SETCDR),
   ("not", .E_NOT), ("and", .E_AND), ("or", .E_OR), ("eq?", .E_EQQ),
   ("boolean?", .E_BOOLQ), ("number?", .E_INTQ), ("null?", .E_NULLQ),
   ("pair?", .E_PAIRQ), ("procedure?", .E_PROCQ), ("symbol?", .E_SYMBOLQ),
   ("list?", .E_LISTQ), ("string?", .E_STRINGQ),
   ("void", .E_VOID), ("exit", .E_EXIT), ("display", .E_DISPLAY)]

/-- Lookup in the primitive table (`primitives.count` / `primitives[op]`). -/
def primLookup (s : String) : Option ExprType :=
  (primitives.find? (fun p => p.1 = s)).map (fun p => p.2)

/-- Modelled from the spec: the reserved-word table of §6. -/
def reservedWords : List (String × ExprType) :=
  [("begin", .E_BEGIN), ("quote", .E_QUOTE), ("if", .E_IF), ("cond", .E_COND),
   ("lambda", .E_LAMBDA), ("define", .E_DEFINE), ("let", .E_LET),
   ("letrec", .E_LETREC), ("set!", .E_SET), ("and", .E_AND), ("or", .E_OR)]

/-- Lookup in the reserved-word table. -/
def rwLookup (s : String) : Option ExprType :=
  (reservedWords.find? (fun p => p.1 = s)).map (fun p => p.2)

/-- The normalization block that evaluation.cpp repeats verbatim inside
each arithmetic helper: compute the gcd, divide it out unless it is zero,
move the sign to the numerator, and collapse denominator 1 to an Integer.
C++ `/` on `int` is truncated division, hence `Int.tdiv`. -/
def normPair (num den : ℤ) : Value :=
  let g := gcd num den
  let num1 := if g = 0 then num else num.tdiv g
  let den1 := if g = 0 then den else den.tdiv g
  let num2 := if den1 < 0 then -num1 else num1
  let den2 := if den1 < 0 then -den1 else den1
  if den2 = 1 then .integer num2 else .rational num2 den2

/-- addValues: `+` on two Integer/Rational values. -/
def addValues : Value → Value → Except String Value
  | .integer n1, .integer n2 => .ok (.integer (n1 + n2))
  | .rational p1 q1, .rational p2 q2 => .ok (normPair (p1 * q2 + p2 * q1) (q1 * q2))
  | .integer n1, .rational p2 q2 => .ok (normPair (n1 * q2 + p2) q2)
  | .rational p1 q1, .integer n2 => .ok (normPair (p1 + n2 * q1) q1)
  | _, _ => .error "Wrong typename in addition"

/-- subtractValues: `-` on two Integer/Rational values. -/
def subtractValues : Value → Value → Except String Value
  | .integer n1, .integer n2 => .ok (.integer (n1 - n2))
  | .rational p1 q1, .rational p2 q2 => .ok (normPair (p1 * q2 - p2 * q1) (q1 * q2))
  | .integer n1, .rational p2 q2 => .ok (normPair (n1 * q2 - p2) q2)
  | .rational p1 q1, .integer n2 => .ok (normPair (p1 - n2 * q1) q1)
  | _, _ => .error "Wrong typename in subtraction"

/-- multiplyValues: `*` on two Integer/Rational values. -/
def multiplyValues : Value → Value → Except String Value
  | .integer n1, .integer n2 => .ok (.integer (n1 * n2))
  | .rational p1 q1, .rational p2 q2 => .ok (normPair (p1 * p2) (q1 * q2))
  | .integer n1, .rational p2 q2 => .ok (normPair (n1 * p2) q2)
  | .rational p1 q1, .integer n2 => .ok (normPair (p1 * n2) q1)
  | _, _ => .error "Wrong typename in multiplication"

/-- divideValues: `/` on two Integer/Rational values; a divisor with
numerator 0 raises "Division by zero" before any normalization. -/
def divideValues : Value → Value → Except String Value
  | .integer n1, .integer n2 =>
      if n2 = 0 then .error "Division by zero" else .ok (normPair n1 n2)
  | .rational p1 q1, .rational p2 q2 =>
      if p2 = 0 then .error "Division by zero" else .ok (normPair (p1 * q2) (q1 * p2))
  | .integer n1, .rational p2 q2 =>
      if p2 = 0 then .error "Division by zero" else .ok (normPair (n1 * q2) p2)
  | .rational p1 q1, .integer n2 =>
      if n2 = 0 then .error "Division by zero" else .ok (normPair p1 (q1 * n2))
  | _, _ => .error "Wrong typename in division"

/-- compareNumericValues: the three-way comparison on the numeric tower,
by cross-multiplication for rationals. -/
def compareNumericValues : Value → Value → Except String ℤ
  | .integer n1, .integer n2 =>
      .ok (if n1 < n2 then -1 else if n2 < n1 then 1 else 0)
  | .rational p1 q1, .integer n2 =>
      .ok (if p1 < n2 * q1 then -1 else if n2 * q1 < p1 then 1 else 0)
  | .integer n1, .rational p2 q2 =>
      .ok (if n1 * q2 < p2 then -1 else if p2 < n1 * q2 then 1 else 0)
  | .rational p1 q1, .rational p2 q2 =>
      .ok (if p1 * q2 < p2 * q1 then -1 else if p2 * q1 < p1 * q2 then 1 else 0)
  | _, _ => .error "Wrong typename in numeric comparison"

/-- Left fold of a fallible binary operation over a value list, the loop
shape `result = f(result, args[i])` shared by the Variadic evalRators. -/
def foldValues (f : Value → Value → Except String Value) :
    Value → List Value → Except String Value
  | acc, [] => .ok acc
  | acc, v :: vs =>
      match f acc v with
      | .error m => .error m
      | .ok r => foldValues f r vs

/-- PlusVar::evalRator. -/
def plusVarRator : List Value → Except String Value
  | [] => .ok (.integer 0)
  | v :: vs => foldValues addValues v vs

/-- MinusVar::evalRator: one argument negates (a Rational is negated in
place, without renormalization), two or more left-fold subtraction. -/
def minusVarRator : List Value → Except String Value
  | [] => .error "Wrong number of arguments for -"
  | [v] =>
      match v with
      | .integer n => .ok (.integer (-n))
      | .rational p q => .ok (.rational (-p) q)
      | _ => .error "Wrong typename"
  | v :: vs => foldValues subtractValues v vs

/-- MultVar::evalRator. -/
def multVarRator : List Value → Except String Value
  | [] => .ok (.integer 1)
  | v :: vs => foldValues multiplyValues v vs

/-- DivVar::evalRator: one argument divides 1 by it, two or more left-fold
division. -/
def divVarRator : List Value → Except String Value
  | [] => .error "Wrong number of arguments for /"
  | [v] => divideValues (.integer 1) v
  | v :: vs => foldValues divideValues v vs

/-- Modulo::evalRator; C++ `%` on `int` is the truncated remainder. -/
def moduloRator : Value → Value → Except String Value
  | .integer n1, .integer n2 =>
      if n2 = 0 then .error "Division by zero"
      else .ok (.integer (Int.tmod n1 n2))
  | _, _ => .error "modulo is only defined for integers"

/-- The exponentiation-by-squaring loop of Expt::evalRator, with its two
32-bit overflow checks (`result` after an odd step, `b` after squaring
while more than one exponent bit remains). -/
def exptLoop (result b : ℤ) (exp : ℕ) : Except String ℤ :=
  if h : exp = 0 then .ok result
  else
    let result1 := if exp % 2 = 1 then result * b else result
    if exp % 2 = 1 ∧ (intMax < result1 ∨ result1 < intMin) then
      .error "Integer overflow in expt"
    else
      let b1 := b * b
      if (intMax < b1 ∨ b1 < intMin) ∧ 1 < exp then
        .error "Integer overflow in expt"
      else exptLoop result1 b1 (exp / 2)
termination_by exp
decreasing_by exact Nat.div_lt_self (Nat.pos_of_ne_zero h) (by omega)

/-- Expt::evalRator: Integer^Integer only, negative exponent and 0^0
rejected up front. -/
def exptRator : Value → Value → Except String Value
  | .integer base, .integer exponent =>
      if exponent < 0 then .error "Negative exponent not supported for integers"
      else if base = 0 ∧ exponent = 0 then .error "0^0 is undefined"
      else (exptLoop 1 base exponent.toNat).map .integer
  | _, _ => .error "Wrong typename"

/-- Comparison evalRators derived from compareNumericValues. -/
def cmpRator (test : ℤ → Bool) (v1 v2 : Value) : Except String Value :=
  (compareNumericValues v1 v2).map (fun c => .boolean (test c))

/-- The adjacent-pairs loop shared by the variadic comparison evalRators:
fewer than two arguments yield `#t`; otherwise the relation must hold
between every adjacent pair. -/
def compareAdjacent (keep : ℤ → Bool) : List Value → Except String Value
  | [] => .ok (.boolean true)
  | [_] => .ok (.boolean true)
  | v1 :: v2 :: rest =>
      match compareNumericValues v1 v2 with
      | .error m => .error m
      | .ok c =>
          if keep c then compareAdjacent keep (v2 :: rest)
          else .ok (.boolean false)

/-- IsList::evalRator's cdr walk: a chain of Pairs ended by Null. -/
def isListChain : Value → Bool
  | .null => true
  | .pair _ cdr => isListChain cdr
  | _ => false

/-- Car::evalRator. -/
def carRator : Value → Except String Value
  | .pair a _ => .ok a
  | _ => .error "car: argument must be a pair"

/-- Cdr::evalRator. -/
def cdrRator : Value → Except String Value
  | .pair _ d => .ok d
  | _ => .error "cdr: argument must be a pair"

/-- Not::evalRator: `#t` exactly on the boolean `#f`. -/
def notRator : Value → Value
  | .boolean false => .boolean true
  | _ => .boolean false

/-- ListFunc::evalRator: a right-nested Pair chain ended by Null. -/
def listRator : List Value → Value
  | [] => .null
  | v :: vs => .pair v (listRator vs)

mutual

/-- syntaxToValue: the structural mapping used by Quote::eval. -/
def stxToValue : Stx → Value
  | .num n => .integer n
  | .rat p q => .rational p q
  | .tru => .boolean true
  | .fls => .boolean false
  | .sym s => .symbol s
  | .strLit s => .strV s
  | .list xs => stxListToValue xs

/-- The list arm of syntaxToValue: right-nested Pairs ended by Null. -/
def stxListToValue : List Stx → Value
  | [] => .null
  | x :: rest => .pair (stxToValue x) (stxListToValue rest)

end

/-- Is the parsed clause head literally `Var("else")`?  (the syntactic test
`dynamic_cast<Var*>` + name comparison inside Cond::eval). -/
def isElseVar : Expr → Bool
  | .Var x => x = "else"
  | _ => false

/-- Evaluate a list of expressions left-to-right threading the store, the
argument-collection loop of Variadic::eval, Apply::eval and Let::eval.
The parameter `p` is the evaluator one recursion level down. -/
def evalList (p : Expr → Assoc → Store → Except String (Value × Store)) :
    List Expr → Assoc → Store → Except String (List Value × Store)
  | [], _, st => .ok ([], st)
  | e :: es, env, st =>
      match p e env st with
      | .error m => .error m
      | .ok (v, st1) =>
          match evalList p es env st1 with
          | .error m => .error m
          | .ok (vs, st2) => .ok (v :: vs, st2)

/-- The short-circuit loop of AndVar::eval: stop with `#f` at the first
boolean `#f`, otherwise return the last operand's value (`#t` if none). -/
def andLoop (p : Expr → Assoc → Store → Except String (Value × Store)) :
    List Expr → Assoc → Store → Except String (Value × Store)
  | [], _, st => .ok (.boolean true, st)
  | e :: es, env, st =>
      match p e env st with
      | .error m => .error m
      | .ok (v, st1) =>
          match v with
          | .boolean false => .ok (.boolean false, st1)
          | _ =>
              match es with
              | [] => .ok (v, st1)
              | _ :: _ => andLoop p es env st1

/-- The short-circuit loop of OrVar::eval: return the first value that is
not the boolean `#f`, else `#f`. -/
def orLoop (p : Expr → Assoc → Store → Except String (Value × Store)) :
    List Expr → Assoc → Store → Except String (Value × Store)
  | [], _, st => .ok (.boolean false, st)
  | e :: es, env, st =>
      match p e env st with
      | .error m => .error m
      | .ok (v, st1) =>
          match v with
          | .boolean false => orLoop p es env st1
          | _ => .ok (v, st1)

/-- The sequencing loop of Begin::eval (also used for cond clause bodies):
empty yields Void, otherwise the value of the last expression. -/
def seqLoop (p : Expr → Assoc → Store → Except String (Value × Store)) :
    List Expr → Assoc → Store → Except String (Value × Store)
  | [], _, st => .ok (.void, st)
  | [e], env, st => p e env st
  | e :: es, env, st =>
      match p e env st with
      | .error m => .error m
      | .ok (_, st1) => seqLoop p es env st1

/-- The clause loop of Cond::eval: empty clauses are skipped; a clause
headed by the parsed expression `Var("else")` runs its body
unconditionally; otherwise the test is evaluated, `#f` moves on to the
next clause, any other value returns itself (single-element clause) or
the body's last value. -/
def condLoop (p : Expr → Assoc → Store → Except String (Value × Store)) :
    List (List Expr) → Assoc → Store → Except String (Value × Store)
  | [], _, st => .ok (.void, st)
  | clause :: rest, env, st =>
      match clause with
      | [] => condLoop p rest env st
      | test :: body =>
          if isElseVar test then seqLoop p body env st
          else
            match p test env st with
            | .error m => .error m
            | .ok (v, st1) =>
                match v with
                | .boolean false => condLoop p rest env st1
                | _ =>
                    match body with
                    | [] => .ok (v, st1)
                    | _ :: _ => seqLoop p body env st1

/-- Bind parameters to argument values in order, extending the captured
environment (the loop at the end of Apply::eval and Let::eval). -/
def extendAll : List String → List Value → Assoc → Store → Assoc × Store
  | [], _, env, st => (env, st)
  | _, [], env, st => (env, st)
  | x :: xs, v :: vs, env, st =>
      let (env1, st1) := extend x (some v) env st
      extendAll xs vs env1 st1

/-- Install a null placeholder cell for every letrec-bound name, in
binding order (the first loop of Letrec::eval). -/
def extendNulls : List String → Assoc → Store → Assoc × Store
  | [], env, st => (env, st)
  | x :: xs, env, st =>
      let (env1, st1) := extend x none env st
      extendNulls xs env1 st1

/-- Evaluate each letrec right-hand side in the already-extended
environment and write the result through `modify` (the second loop of
Letrec::eval). -/
def letrecRhs (p : Expr → Assoc → Store → Except String (Value × Store)) :
    List (String × Expr) → Assoc → Store → Except String Store
  | [], _, st => .ok st
  | (x, rhs) :: rest, env, st =>
      match p rhs env st with
      | .error m => .error m
      | .ok (v, st1) => letrecRhs p rest env (modify x v env st1)

/-- Evaluate two operands left-to-right and apply a Binary evalRator. -/
def evalBinary (p : Expr → Assoc → Store → Except String (Value × Store))
    (a b : Expr) (f : Value → Value → Except String Value)
    (env : Assoc) (st : Store) : Except String (Value × Store) :=
  match p a env st with
  | .error m => .error m
  | .ok (v1, st1) =>
      match p b env st1 with
      | .error m => .error m
      | .ok (v2, st2) =>
          match f v1 v2 with
          | .error m => .error m
          | .ok v => .ok (v, st2)

/-- Evaluate one operand and apply a Unary evalRator. -/
def evalUnary (p : Expr → Assoc → Store → Except String (Value × Store))
    (a : Expr) (f : Value → Except String Value)
    (env : Assoc) (st : Store) : Except String (Value × Store) :=
  match p a env st with
  | .error m => .error m
  | .ok (v, st1) =>
      match f v with
      | .error m => .error m
      | .ok v1 => .ok (v1, st1)

/-- Evaluate all operands and apply a Variadic evalRator. -/
def evalVariadic (p : Expr → Assoc → Store → Except String (Value × Store))
    (rands : List Expr) (f : List Value → Except String Value)
    (env : Assoc) (st : Store) : Except String (Value × Store) :=
  match evalList p rands env st with
  | .error m => .error m
  | .ok (args, st1) =>
      match f args with
      | .error m => .error m
      | .ok v => .ok (v, st1)

/-- The expression evaluator.  The fuel argument bounds the recursion
depth (the C++ evaluator recurses on the host stack); every nested
`->eval` call runs one fuel level down, loops over sibling expressions run
at the same level.  `Define`, `set-car!`, `set-cdr!`, `eq?` and `display`
are outside the modelled fragment (they respectively mutate the caller's
environment reference, mutate pair cells in place, compare object
identity — treated separately by `isEqRator` — and print); no claim
exercises their evaluation, and the corresponding arms refuse instead of
guessing. -/
def eval : ℕ → Expr → Assoc → Store → Except String (Value × Store)
  | 0, _, _, _ => .error "Recursion depth exceeded"
  | fuel + 1, e, env, st =>
    match e with
    | .Fixnum n => .ok (.integer n, st)
    | .RationalNum p q => .ok (.rational p q, st)
    | .StringExpr s => .ok (.strV s, st)
    | .True => .ok (.boolean true, st)
    | .False => .ok (.boolean false, st)
    | .MakeVoid => .ok (.void, st)
    | .Exit => .ok (.terminate, st)
    | .Var x =>
        match find x env st with
        | some v => .ok (v, st)
        | none =>
            if (primLookup x).isSome then .ok (.procedure [] (.Var x) env, st)
            else .error ("Undefined variable: " ++ x)
    | .Plus a b => evalBinary (eval fuel) a b addValues env st
    | .Minus a b => evalBinary (eval fuel) a b subtractValues env st
    | .Mult a b => evalBinary (eval fuel) a b multiplyValues env st
    | .Div a b => evalBinary (eval fuel) a b divideValues env st
    | .Modulo a b => evalBinary (eval fuel) a b moduloRator env st
    | .Expt a b => evalBinary (eval fuel) a b exptRator env st
    | .PlusVar rands => evalVariadic (eval fuel) rands plusVarRator env st
    | .MinusVar rands => evalVariadic (eval fuel) rands minusVarRator env st
    | .MultVar rands => evalVariadic (eval fuel) rands multVarRator env st
    | .DivVar rands => evalVariadic (eval fuel) rands divVarRator env st
    | .Less a b => evalBinary (eval fuel) a b (cmpRator (fun c => c < 0)) env st
    | .LessEq a b => evalBinary (eval fuel) a b (cmpRator (fun c => c ≤ 0)) env st
    | .Equal a b => evalBinary (eval fuel) a b (cmpRator (fun c => c = 0)) env st
    | .GreaterEq a b => evalBinary (eval fuel) a b (cmpRator (fun c => 0 ≤ c)) env st
    | .Greater a b => evalBinary (eval fuel) a b (cmpRator (fun c => 0 < c)) env st
    | .LessVar rands =>
        evalVariadic (eval fuel) rands (compareAdjacent (fun c => c < 0)) env st
    | .LessEqVar rands =>
        evalVariadic (eval fuel) rands (compareAdjacent (fun c => c ≤ 0)) env st
    | .EqualVar rands =>
        evalVariadic (eval fuel) rands (compareAdjacent (fun c => c = 0)) env st
    | .GreaterEqVar rands =>
        evalVariadic (eval fuel) rands (compareAdjacent (fun c => 0 ≤ c)) env st
    | .GreaterVar rands =>
        evalVariadic (eval fuel) rands (compareAdjacent (fun c => 0 < c)) env st
    | .Cons a b => evalBinary (eval fuel) a b (fun v1 v2 => .ok (.pair v1 v2)) env st
    | .Car a => evalUnary (eval fuel) a carRator env st
    | .Cdr a => evalUnary (eval fuel) a cdrRator env st
    | .ListFunc rands =>
        evalVariadic (eval fuel) rands (fun args => .ok (listRator args)) env st
    | .SetCar _ _ => .error "set-car! mutates pair cells and is outside the modelled fragment"
    | .SetCdr _ _ => .error "set-cdr! mutates pair cells and is outside the modelled fragment"
    | .IsList a =>
        evalUnary (eval fuel) a (fun v => .ok (.boolean (isListChain v))) env st
    | .IsEq _ _ => .error "eq? compares object identity and is outside the modelled fragment"
    | .IsBoolean a =>
        evalUnary (eval fuel) a
          (fun v => .ok (.boolean (match v with | .boolean _ => true | _ => false))) env st
    | .IsFixnum a =>
        evalUnary (eval fuel) a
          (fun v => .ok (.boolean (match v with | .integer _ => true | _ => false))) env st
    | .IsNull a =>
        evalUnary (eval fuel) a
          (fun v => .ok (.boolean (match v with | .null => true | _ => false))) env st
    | .IsPair a =>
        evalUnary (eval fuel) a
          (fun v => .ok (.boolean (match v with | .pair _ _ => true | _ => false))) env st
    | .IsProcedure a =>
        evalUnary (eval fuel) a
          (fun v => .ok (.boolean (match v with | .procedure _ _ _ => true | _ => false))) env st
    | .IsSymbol a =>
        evalUnary (eval fuel) a
          (fun v => .ok (.boolean (match v with | .symbol _ => true | _ => false))) env st
    | .IsString a =>
        evalUnary (eval fuel) a
          (fun v => .ok (.boolean (match v with | .strV _ => true | _ => false))) env st
    | .Not a => evalUnary (eval fuel) a (fun v => .ok (notRator v)) env st
    | .AndVar rands => andLoop (eval fuel) rands env st
    | .OrVar rands => orLoop (eval fuel) rands env st
    | .If c t f =>
        match eval fuel c env st with
        | .error m => .error m
        | .ok (v, st1) =>
            match v with
            | .boolean false => eval fuel f env st1
            | _ => eval fuel t env st1
    | .Cond clauses => condLoop (eval fuel) clauses env st
    | .Begin es => seqLoop (eval fuel) es env st
    | .Quote s => .ok (stxToValue s, st)
    | .Display _ => .error "display prints to stdout and is outside the modelled fragment"
    | .Lambda xs body => .ok (.procedure xs body env, st)
    | .Apply rator rands =>
        match eval fuel rator env st with
        | .error m => .error m
        | .ok (rv, st1) =>
            match rv with
            | .procedure params body cenv =>
                match evalList (eval fuel) rands env st1 with
                | .error m => .error m
                | .ok (args, st2) =>
                    if args.length = params.length then
                      let (penv, st3) := extendAll params args cenv st2
                      eval fuel body penv st3
                    else .error "Wrong number of arguments"
            | _ => .error "Attempt to apply a non-procedure"
    | .Define _ _ => .error "define mutates the top-level frame and is outside the modelled fragment"
    | .Let binds body =>
        match evalList (eval fuel) (binds.map Prod.snd) env st with
        | .error m => .error m
        | .ok (vals, st1) =>
            let p := extendAll (binds.map Prod.fst) vals env st1
            eval fuel body p.1 p.2
    | .Letrec binds body =>
        let p := extendNulls (binds.map Prod.fst) env st
        match letrecRhs (eval fuel) binds p.1 p.2 with
        | .error m => .error m
        | .ok st2 => eval fuel body p.1 st2
    | .Set x rhs =>
        match eval fuel rhs env st with
        | .error m => .error m
        | .ok (v, st1) =>
            match find x env st1 with
            | none => .error ("Undefined variable in set!: " ++ x)
            | some _ => .ok (.void, modify x v env st1)

/-- A reference to a heap-allocated value, modelling the `shared_ptr`
argument of IsEq::evalRator: `addr` is the address of the pointed-to
object (two distinct allocations have distinct addresses), `val` its
contents. -/
structure VRef where
  addr : ℕ
  val : Value

/-- IsEq::evalRator: Integers by numeric value, Booleans by boolean,
Symbols by name, Null≡Null and Void≡Void, everything else (including any
mixed pair of types) by pointer identity. -/
def isEqRator (r1 r2 : VRef) : Value :=
  match r1.val, r2.val with
  | .integer n1, .integer n2 => .boolean (decide (n1 = n2))
  | .boolean b1, .boolean b2 => .boolean (decide (b1 = b2))
  | .symbol s1, .symbol s2 => .boolean (decide (s1 = s2))
  | .null, .null => .boolean true
  | .void, .void => .boolean true
  | _, _ => .boolean (decide (r1.addr = r2.addr))

/-- Parse a list of syntax objects into expressions, the
`for i in 1..size` loops of List::parse.  `p` is the parser one recursion
level down. -/
def parseArgs (p : Stx → Except String Expr) :
    List Stx → Except String (List Expr)
  | [] => .ok []
  | s :: rest =>
      match p s with
      | .error m => .error m
      | .ok e =>
          match parseArgs p rest with
          | .error m => .error m
          | .ok es => .ok (e :: es)

/-- Parse the clause list of a `cond` form: each clause must itself be a
list; its members are parsed as expressions. -/
def parseClauses (p : Stx → Except String Expr) :
    List Stx → Except String (List (List Expr))
  | [] => .ok []
  | c :: rest =>
      match c with
      | .list cs =>
          match parseArgs p cs with
          | .error m => .error m
          | .ok es =>
              match parseClauses p rest with
              | .error m => .error m
              | .ok more => .ok (es :: more)
      | _ => .error "cond clause must be a list"

/-- Check that every member of a parameter list is a symbol (`lambda` and
the `define` function shorthand use different error messages). -/
def symList (msg : String) : List Stx → Except String (List String)
  | [] => .ok []
  | s :: rest =>
      match s with
      | .sym x =>
          match symList msg rest with
          | .error m => .error m
          | .ok xs => .ok (x :: xs)
      | _ => .error msg

/-- Parse a `let`/`letrec` binding list: each binding is a two-element
list whose head is a symbol. -/
def parseBindings (p : Stx → Except String Expr) (kw : String) :
    List Stx → Except String (List (String × Expr))
  | [] => .ok []
  | b :: rest =>
      match b with
      | .list [v, rhs] =>
          match v with
          | .sym x =>
              match p rhs with
              | .error m => .error m
              | .ok e =>
                  match parseBindings p kw rest with
                  | .error m => .error m
                  | .ok more => .ok ((x, e) :: more)
          | _ => .error (kw ++ " variable must be a symbol")
      | _ => .error (kw ++ " binding must be a pair")

/-- The primitive dispatch of List::parse (lines 91–254 of parser.cpp),
applied after all argument syntaxes have been parsed: the arithmetic and
comparison primitives build the binary node on exactly two arguments and
the variadic node otherwise; the fixed-arity primitives raise a
RuntimeError on any other argument count; `list`, `and`, `or` accept any
count. -/
def parsePrimApp (op : String) (t : ExprType) (ps : List Expr) :
    Except String Expr :=
  match t with
  | .E_PLUS => match ps with | [a, b] => .ok (.Plus a b) | _ => .ok (.PlusVar ps)
  | .E_MINUS => match ps with | [a, b] => .ok (.Minus a b) | _ => .ok (.MinusVar ps)
  | .E_MUL => match ps with | [a, b] => .ok (.Mult a b) | _ => .ok (.MultVar ps)
  | .E_DIV => match ps with | [a, b] => .ok (.Div a b) | _ => .ok (.DivVar ps)
  | .E_MODULO =>
      match ps with
      | [a, b] => .ok (.Modulo a b)
      | _ => .error "Wrong number of arguments for modulo"
  | .E_EXPT =>
      match ps with
      | [a, b] => .ok (.Expt a b)
      | _ => .error "Wrong number of arguments for expt"
  | .E_LT => match ps with | [a, b] => .ok (.Less a b) | _ => .ok (.LessVar ps)
  | .E_LE => match ps with | [a, b] => .ok (.LessEq a b) | _ => .ok (.LessEqVar ps)
  | .E_EQ => match ps with | [a, b] => .ok (.Equal a b) | _ => .ok (.EqualVar ps)
  | .E_GE => match ps with | [a, b] => .ok (.GreaterEq a b) | _ => .ok (.GreaterEqVar ps)
  | .E_GT => match ps with | [a, b] => .ok (.Greater a b) | _ => .ok (.GreaterVar ps)
  | .E_CONS =>
      match ps with
      | [a, b] => .ok (.Cons a b)
      | _ => .error "Wrong number of arguments for cons"
  | .E_CAR =>
      match ps with
      | [a] => .ok (.Car a)
      | _ => .error "Wrong number of arguments for car"
  | .E_CDR =>
      match ps with
      | [a] => .ok (.Cdr a)
      | _ => .error "Wrong number of arguments for cdr"
  | .E_LIST => .ok (.ListFunc ps)
  | .E_SETCAR =>
      match ps with
      | [a, b] => .ok (.SetCar a b)
      | _ => .error "Wrong number of arguments for set-car!"
  | .E_SETCDR =>
      match ps with
      | [a, b] => .ok (.SetCdr a b)
      | _ => .error "Wrong number of arguments for set-cdr!"
  | .E_NOT =>
      match ps with
      | [a] => .ok (.Not a)
      | _ => .error "Wrong number of arguments for not"
  | .E_AND => .ok (.AndVar ps)
  | .E_OR => .ok (.OrVar ps)
  | .E_EQQ =>
      match ps with
      | [a, b] => .ok (.IsEq a b)
      | _ => .error "Wrong number of arguments for eq?"
  | .E_BOOLQ =>
      match ps with
      | [a] => .ok (.IsBoolean a)
      | _ => .error "Wrong number of arguments for boolean?"
  | .E_INTQ =>
      match ps with
      | [a] => .ok (.IsFixnum a)
      | _ => .error "Wrong number of arguments for number?"
  | .E_NULLQ =>
      match ps with
      | [a] => .ok (.IsNull a)
      | _ => .error "Wrong number of arguments for null?"
  | .E_PAIRQ =>
      match ps with
      | [a] => .ok (.IsPair a)
      | _ => .error "Wrong number of arguments for pair?"
  | .E_PROCQ =>
      match ps with
      | [a] => .ok (.IsProcedure a)
      | _ => .error "Wrong number of arguments for procedure?"
  | .E_SYMBOLQ =>
      match ps with
      | [a] => .ok (.IsSymbol a)
      | _ => .error "Wrong number of arguments for symbol?"
  | .E_LISTQ =>
      match ps with
      | [a] => .ok (.IsList a)
      | _ => .error "Wrong number of arguments for list?"
  | .E_STRINGQ =>
      match ps with
      | [a] => .ok (.IsString a)
      | _ => .error "Wrong number of arguments for string?"
  | .E_VOID =>
      match ps with
      | [] => .ok .MakeVoid
      | _ => .error "Wrong number of arguments for void"
  | .E_EXIT =>
      match ps with
      | [] => .ok .Exit
      | _ => .error "Wrong number of arguments for exit"
  | .E_DISPLAY =>
      match ps with
      | [a] => .ok (.Display a)
      | _ => .error "Wrong number of arguments for display"
  | _ => .error ("Unknown primitive: " ++ op)

/-- The reserved-word dispatch of List::parse. `args` is the list form's
tail (everything after the head symbol), so the C++ `stxs.size()` equals
`args.length + 1`. -/
def parseReserved (p : Stx → Except String Expr) (op : String)
    (t : ExprType) (args : List Stx) : Except String Expr :=
  match t with
  | .E_BEGIN =>
      match parseArgs p args with
      | .error m => .error m
      | .ok es => .ok (.Begin es)
  | .E_QUOTE =>
      match args with
      | [d] => .ok (.Quote d)
      | _ => .error "Wrong number of arguments for quote"
  | .E_IF =>
      match args with
      | [c, t1, e1] =>
          match p c with
          | .error m => .error m
          | .ok cE =>
              match p t1 with
              | .error m => .error m
              | .ok tE =>
                  match p e1 with
                  | .error m => .error m
                  | .ok eE => .ok (.If cE tE eE)
      | _ => .error "Wrong number of arguments for if"
  | .E_COND =>
      match parseClauses p args with
      | .error m => .error m
      | .ok cls => .ok (.Cond cls)
  | .E_LAMBDA =>
      match args with
      | ps :: b0 :: brest =>
          match ps with
          | .list pss =>
              match symList "lambda parameter must be a symbol" pss with
              | .error m => .error m
              | .ok params =>
                  match parseArgs p (b0 :: brest) with
                  | .error m => .error m
                  | .ok es => .ok (.Lambda params (.Begin es))
          | _ => .error "lambda parameters must be a list"
      | _ => .error "Wrong number of arguments for lambda"
  | .E_DEFINE =>
      match args with
      | v :: b0 :: brest =>
          match v with
          | .sym x =>
              match parseArgs p (b0 :: brest) with
              | .error m => .error m
              | .ok es => .ok (.Define x (.Begin es))
          | .list [] => .error "Invalid define syntax"
          | .list (f :: pss) =>
              match f with
              | .sym fname =>
                  match symList "Function parameter must be a symbol" pss with
                  | .error m => .error m
                  | .ok params =>
                      match parseArgs p (b0 :: brest) with
                      | .error m => .error m
                      | .ok es => .ok (.Define fname (.Lambda params (.Begin es)))
              | _ => .error "Function name must be a symbol"
          | _ => .error "Invalid define syntax"
      | _ => .error "Wrong number of arguments for define"
  | .E_LET =>
      match args with
      | bs :: b0 :: brest =>
          match bs with
          | .list bss =>
              match parseBindings p "let" bss with
              | .error m => .error m
              | .ok binds =>
                  match parseArgs p (b0 :: brest) with
                  | .error m => .error m
                  | .ok es => .ok (.Let binds (.Begin es))
          | _ => .error "let bindings must be a list"
      | _ => .error "Wrong number of arguments for let"
  | .E_LETREC =>
      match args with
      | bs :: b0 :: brest =>
          match bs with
          | .list bss =>
              match parseBindings p "letrec" bss with
              | .error m => .error m
              | .ok binds =>
                  match parseArgs p (b0 :: brest) with
                  | .error m => .error m
                  | .ok es => .ok (.Letrec binds (.Begin es))
          | _ => .error "letrec bindings must be a list"
      | _ => .error "Wrong number of arguments for letrec"
  | .E_SET =>
      match args with
      | [v, rhs] =>
          match v with
          | .sym x =>
              match p rhs with
              | .error m => .error m
              | .ok e => .ok (.Set x e)
          | _ => .error "set! variable must be a symbol"
      | _ => .error "Wrong number of arguments for set!"
  | _ => .error ("Unknown reserved word: " ++ op)

/-- The parser (List::parse and the atom parse methods).  A list head is
resolved in order: bound variable in `env` (shadowing everything), then
primitive, then reserved word, then a runtime-deferred application.  The
fuel bounds the syntax nesting depth. -/
def parseStx : ℕ → Stx → Assoc → Store → Except String Expr
  | 0, _, _, _ => .error "Recursion depth exceeded"
  | fuel + 1, s, env, st =>
    match s with
    | .num n => .ok (.Fixnum n)
    | .rat p q => .ok (.RationalNum p q)
    | .sym x => .ok (.Var x)
    | .strLit s1 => .ok (.StringExpr s1)
    | .tru => .ok .True
    | .fls => .ok .False
    | .list [] => .ok (.Quote (.list []))
    | .list (h :: args) =>
        match h with
        | .sym op =>
            if (find op env st).isSome then
              match parseArgs (fun u => parseStx fuel u env st) args with
              | .error m => .error m
              | .ok params => .ok (.Apply (.Var op) params)
            else
              match primLookup op with
              | some t =>
                  match parseArgs (fun u => parseStx fuel u env st) args with
                  | .error m => .error m
                  | .ok params => parsePrimApp op t params
              | none =>
                  match rwLookup op with
                  | some t =>
                      parseReserved (fun u => parseStx fuel u env st) op t args
                  | none =>
                      match parseArgs (fun u => parseStx fuel u env st) args with
                      | .error m => .error m
                      | .ok params => .ok (.Apply (.Var op) params)
        | _ =>
            match parseArgs (fun u => parseStx fuel u env st) args with
            | .error m => .error m
            | .ok params =>
                match parseStx fuel h env st with
                | .error m => .error m
                | .ok hE => .ok (.Apply hE params)

/-- Did an Except computation succeed? -/
def okB {α : Type} : Except String α → Bool
  | .ok _ => true
  | .error _ => false

/-- Arity discipline as the spec states it (§4.1 step 4), for comparison
with `parsePrimApp`: the arithmetic/comparison primitives and `list`,
`and`, `or` accept any count; `modulo`, `expt`, `cons`, `set-car!`,
`set-cdr!`, `eq?` take exactly 2; `car`, `cdr`, `not`, the type
predicates and `display` exactly 1; `void`, `exit` exactly 0.  Reserved
words are not primitives, hence `false`. -/
def specArity : ExprType → ℕ → Bool
  | .E_PLUS, _ => true
  | .E_MINUS, _ => true
  | .E_MUL, _ => true
  | .E_DIV, _ => true
  | .E_LT, _ => true
  | .E_LE, _ => true
  | .E_EQ, _ => true
  | .E_GE, _ => true
  | .E_GT, _ => true
  | .E_LIST, _ => true
  | .E_AND, _ => true
  | .E_OR, _ => true
  | .E_MODULO, n => n == 2
  | .E_EXPT, n => n == 2
  | .E_CONS, n => n == 2
  | .E_SETCAR, n => n == 2
  | .E_SETCDR, n => n == 2
  | .E_EQQ, n => n == 2
  | .E_CAR, n => n == 1
  | .E_CDR, n => n == 1
  | .E_NOT, n => n == 1
  | .E_BOOLQ, n => n == 1
  | .E_INTQ, n => n == 1
  | .E_NULLQ, n => n == 1
  | .E_PAIRQ, n => n == 1
  | .E_PROCQ, n => n == 1
  | .E_SYMBOLQ, n => n == 1
  | .E_LISTQ, n => n == 1
  | .E_STRINGQ, n => n == 1
  | .E_DISPLAY, n => n == 1
  | .E_VOID, n => n == 0
  | .E_EXIT, n => n == 0
  | _, _ => false

/-- The normalization invariant on values: a Rational has denominator
greater than 1 and numerator coprime to it; all other variants satisfy it
trivially. -/
def Normalized : Value → Prop
  | .rational p q => 1 < q ∧ Int.gcd p q = 1
  | _ => True

/-- The exact rational a numeric value denotes; `none` on non-numeric
values and on a Rational with a zero denominator. -/
def toRat : Value → Option ℚ
  | .integer n => some (n : ℚ)
  | .rational p q => if q = 0 then none else some ((p : ℚ) / (q : ℚ))
  | _ => none

/-- The parsed form of (lambda (n) (if (= n 0) #t (odd? (- n 1)))) — the
parser wraps the body in Begin. -/
def lamEven : Expr :=
  .Lambda ["n"] (.Begin [.If (.Equal (.Var "n") (.Fixnum 0)) .True
      (.Apply (.Var "odd?") [.Minus (.Var "n") (.Fixnum 1)])])

/-- The parsed form of (lambda (n) (if (= n 0) #f (even? (- n 1)))). -/
def lamOdd : Expr :=
  .Lambda ["n"] (.Begin [.If (.Equal (.Var "n") (.Fixnum 0)) .False
      (.Apply (.Var "even?") [.Minus (.Var "n") (.Fixnum 1)])])

/-- The spec's mutual-recursion scenario:
(letrec ((even? …) (odd? …)) (even? 10)). -/
def evenOddProgram : Expr :=
  .Letrec [("even?", lamEven), ("odd?", lamOdd)] (.Apply (.Var "even?") [.Fixnum 10])

/-- Inversion for `toRat`: a numeric value is an Integer, or a Rational
with nonzero denominator. -/
theorem toRat_cases (v : Value) (q : ℚ) (h : toRat v = some q) :
    (∃ n : ℤ, v = .integer n ∧ (n : ℚ) = q) ∨
    (∃ p d : ℤ, v = .rational p d ∧ d ≠ 0 ∧ (p : ℚ) / (d : ℚ) = q) := by
  cases v <;> simp only [toRat] at h
  case integer n => exact Or.inl ⟨n, rfl, by injection h⟩
  case rational p d =>
    split at h
    · exact Option.noConfusion h
    · exact Or.inr ⟨p, d, rfl, by assumption, by injection h⟩
  all_goals exact Option.noConfusion h

/-- The normalization block is correct: for a nonzero denominator it
returns a value satisfying the Rational invariant and denoting the exact
quotient. -/
theorem normPair_spec (n d : ℤ) (hd : d ≠ 0) :
    Normalized (normPair n d) ∧ toRat (normPair n d) = some ((n : ℚ) / (d : ℚ)) := by
  have hgcd0 : Int.gcd n d ≠ 0 := fun h => hd (Int.gcd_eq_zero_iff.mp h).2
  have hgz : (Int.gcd n d : ℤ) ≠ 0 := by exact_mod_cast hgcd0
  have hdvdn : (Int.gcd n d : ℤ) ∣ n := Int.gcd_dvd_left
  have hdvdd : (Int.gcd n d : ℤ) ∣ d := Int.gcd_dvd_right
  have hn_eq : n / (Int.gcd n d : ℤ) * (Int.gcd n d : ℤ) = n := Int.ediv_mul_cancel hdvdn
  have hd_eq : d / (Int.gcd n d : ℤ) * (Int.gcd n d : ℤ) = d := Int.ediv_mul_cancel hdvdd
  have hcop : Int.gcd (n / (Int.gcd n d : ℤ)) (d / (Int.gcd n d : ℤ)) = 1 :=
    Int.gcd_div_gcd_div_gcd (Nat.pos_of_ne_zero hgcd0)
  have hunfold : normPair n d =
      (if (if d / (Int.gcd n d : ℤ) < 0 then -(d / (Int.gcd n d : ℤ))
           else d / (Int.gcd n d : ℤ)) = 1
       then Value.integer (if d / (Int.gcd n d : ℤ) < 0 then -(n / (Int.gcd n d : ℤ))
           else n / (Int.gcd n d : ℤ))
       else Value.rational
           (if d / (Int.gcd n d : ℤ) < 0 then -(n / (Int.gcd n d : ℤ))
            else n / (Int.gcd n d : ℤ))
           (if d / (Int.gcd n d : ℤ) < 0 then -(d / (Int.gcd n d : ℤ))
            else d / (Int.gcd n d : ℤ))) := by
    simp only [normPair, gcd, if_neg hgz, Int.tdiv_eq_ediv_of_dvd hdvdn,
      Int.tdiv_eq_ediv_of_dvd hdvdd]
  rw [hunfold]
  set n1 := n / (Int.gcd n d : ℤ) with hn1def
  set d1 := d / (Int.gcd n d : ℤ) with hd1def
  have hd1ne : d1 ≠ 0 := fun h0 => hd (by rw [← hd_eq, h0, zero_mul])
  have hratio : (n : ℚ) / (d : ℚ) = (n1 : ℚ) / (d1 : ℚ) := by
    have hdQ : (d : ℚ) ≠ 0 := Int.cast_ne_zero.mpr hd
    have hd1Q : (d1 : ℚ) ≠ 0 := Int.cast_ne_zero.mpr hd1ne
    rw [div_eq_div_iff hdQ hd1Q]
    have h1 : (n1 : ℚ) * ((Int.gcd n d : ℤ) : ℚ) = (n : ℚ) := by exact_mod_cast hn_eq
    have h2 : (d1 : ℚ) * ((Int.gcd n d : ℤ) : ℚ) = (d : ℚ) := by exact_mod_cast hd_eq
    rw [← h1, ← h2]
    ring
  by_cases hneg : d1 < 0
  · simp only [if_pos hneg]
    by_cases h1 : -d1 = 1
    · simp only [if_pos h1]
      refine ⟨trivial, ?_⟩
      have hd1 : d1 = -1 := by omega
      simp only [toRat, hratio, hd1]
      push_cast
      rw [div_neg, div_one]
    · simp only [if_neg h1]
      have hpos : 1 < -d1 := by omega
      constructor
      · exact ⟨hpos, by rw [Int.neg_gcd, Int.gcd_neg]; exact hcop⟩
      · have hne : -d1 ≠ 0 := by omega
        simp only [toRat, if_neg hne, hratio]
        push_cast
        rw [neg_div_neg_eq]
  · simp only [if_neg hneg]
    by_cases h1 : d1 = 1
    · simp only [if_pos h1]
      refine ⟨trivial, ?_⟩
      simp only [toRat, hratio, h1]
      push_cast
      rw [div_one]
    · simp only [if_neg h1]
      have hpos : 1 < d1 := by omega
      exact ⟨⟨hpos, hcop⟩, by simp only [toRat, if_neg hd1ne, hratio]⟩

/-- addValues returns a normalized value denoting the exact sum. -/
theorem addValues_ok (v w : Value) (qv qw : ℚ)
    (hv : toRat v = some qv) (hw : toRat w = some qw) :
    ∃ u, addValues v w = .ok u ∧ toRat u = some (qv + qw) ∧ Normalized u := by
  rcases toRat_cases v qv hv with ⟨n1, rfl, rfl⟩ | ⟨p1, q1, rfl, hq1, rfl⟩ <;>
    rcases toRat_cases w qw hw with ⟨n2, rfl, rfl⟩ | ⟨p2, q2, rfl, hq2, rfl⟩
  · exact ⟨.integer (n1 + n2), rfl, by simp [toRat], trivial⟩
  · obtain ⟨hnorm, hrat⟩ := normPair_spec (n1 * q2 + p2) q2 hq2
    refine ⟨_, rfl, ?_, hnorm⟩
    rw [hrat]
    congr 1
    have hq2Q : (q2 : ℚ) ≠ 0 := Int.cast_ne_zero.mpr hq2
    field_simp
    try push_cast
    try ring
  · obtain ⟨hnorm, hrat⟩ := normPair_spec (p1 + n2 * q1) q1 hq1
    refine ⟨_, rfl, ?_, hnorm⟩
    rw [hrat]
    congr 1
    have hq1Q : (q1 : ℚ) ≠ 0 := Int.cast_ne_zero.mpr hq1
    field_simp
    try push_cast
    try ring
  · obtain ⟨hnorm, hrat⟩ := normPair_spec (p1 * q2 + p2 * q1) (q1 * q2) (mul_ne_zero hq1 hq2)
    refine ⟨_, rfl, ?_, hnorm⟩
    rw [hrat]
    congr 1
    have hq1Q : (q1 : ℚ) ≠ 0 := Int.cast_ne_zero.mpr hq1
    have hq2Q : (q2 : ℚ) ≠ 0 := Int.cast_ne_zero.mpr hq2
    field_simp
    try push_cast
    try ring

/-- subtractValues returns a normalized value denoting the exact difference. -/
theorem subtractValues_ok (v w : Value) (qv qw : ℚ)
    (hv : toRat v = some qv) (hw : toRat w = some qw) :
    ∃ u, subtractValues v w = .ok u ∧ toRat u = some (qv - qw) ∧ Normalized u := by
  rcases toRat_cases v qv hv with ⟨n1, rfl, rfl⟩ | ⟨p1, q1, rfl, hq1, rfl⟩ <;>
    rcases toRat_cases w qw hw with ⟨n2, rfl, rfl⟩ | ⟨p2, q2, rfl, hq2, rfl⟩
  · exact ⟨.integer (n1 - n2), rfl, by simp [toRat], trivial⟩
  · obtain ⟨hnorm, hrat⟩ := normPair_spec (n1 * q2 - p2) q2 hq2
    refine ⟨_, rfl, ?_, hnorm⟩
    rw [hrat]
    congr 1
    have hq2Q : (q2 : ℚ) ≠ 0 := Int.cast_ne_zero.mpr hq2
    field_simp
    try push_cast
    try ring
  · obtain ⟨hnorm, hrat⟩ := normPair_spec (p1 - n2 * q1) q1 hq1
    refine ⟨_, rfl, ?_, hnorm⟩
    rw [hrat]
    congr 1
    have hq1Q : (q1 : ℚ) ≠ 0 := Int.cast_ne_zero.mpr hq1
    field_simp
    try push_cast
    try ring
  · obtain ⟨hnorm, hrat⟩ := normPair_spec (p1 * q2 - p2 * q1) (q1 * q2) (mul_ne_zero hq1 hq2)
    refine ⟨_, rfl, ?_, hnorm⟩
    rw [hrat]
    congr 1
    have hq1Q : (q1 : ℚ) ≠ 0 := Int.cast_ne_zero.mpr hq1
    have hq2Q : (q2 : ℚ) ≠ 0 := Int.cast_ne_zero.mpr hq2
    field_simp
    try push_cast
    try ring

/-- multiplyValues returns a normalized value denoting the exact product. -/
theorem multiplyValues_ok (v w : Value) (qv qw : ℚ)
    (hv : toRat v = some qv) (hw : toRat w = some qw) :
    ∃ u, multiplyValues v w = .ok u ∧ toRat u = some (qv * qw) ∧ Normalized u := by
  rcases toRat_cases v qv hv with ⟨n1, rfl, rfl⟩ | ⟨p1, q1, rfl, hq1, rfl⟩ <;>
    rcases toRat_cases w qw hw with ⟨n2, rfl, rfl⟩ | ⟨p2, q2, rfl, hq2, rfl⟩
  · exact ⟨.integer (n1 * n2), rfl, by simp [toRat], trivial⟩
  · obtain ⟨hnorm, hrat⟩ := normPair_spec (n1 * p2) q2 hq2
    refine ⟨_, rfl, ?_, hnorm⟩
    rw [hrat]
    congr 1
    have hq2Q : (q2 : ℚ) ≠ 0 := Int.cast_ne_zero.mpr hq2
    field_simp
    try push_cast
    try ring
  · obtain ⟨hnorm, hrat⟩ := normPair_spec (p1 * n2) q1 hq1
    refine ⟨_, rfl, ?_, hnorm⟩
    rw [hrat]
    congr 1
    have hq1Q : (q1 : ℚ) ≠ 0 := Int.cast_ne_zero.mpr hq1
    field_simp
    try push_cast
    try ring
  · obtain ⟨hnorm, hrat⟩ := normPair_spec (p1 * p2) (q1 * q2) (mul_ne_zero hq1 hq2)
    refine ⟨_, rfl, ?_, hnorm⟩
    rw [hrat]
    congr 1
    have hq1Q : (q1 : ℚ) ≠ 0 := Int.cast_ne_zero.mpr hq1
    have hq2Q : (q2 : ℚ) ≠ 0 := Int.cast_ne_zero.mpr hq2
    field_simp
    try push_cast
    try ring

/-- divideValues raises "Division by zero" exactly on a zero divisor and
otherwise returns a normalized value denoting the exact quotient. -/
theorem divideValues_spec (v w : Value) (qv qw : ℚ)
    (hv : toRat v = some qv) (hw : toRat w = some qw) :
    (qw = 0 → divideValues v w = .error "Division by zero") ∧
    (qw ≠ 0 → ∃ u, divideValues v w = .ok u ∧
        toRat u = some (qv / qw) ∧ Normalized u) := by
  rcases toRat_cases v qv hv with ⟨n1, rfl, rfl⟩ | ⟨p1, q1, rfl, hq1, rfl⟩ <;>
    rcases toRat_cases w qw hw with ⟨n2, rfl, rfl⟩ | ⟨p2, q2, rfl, hq2, rfl⟩
  · constructor
    · intro h0
      have hn2 : n2 = 0 := by exact_mod_cast h0
      simp [divideValues, hn2]
    · intro h0
      have hn2 : n2 ≠ 0 := fun h => h0 (by rw [h]; simp)
      obtain ⟨hnorm, hrat⟩ := normPair_spec n1 n2 hn2
      exact ⟨_, by simp [divideValues, hn2], by rw [hrat], hnorm⟩
  · have hq2Q : (q2 : ℚ) ≠ 0 := Int.cast_ne_zero.mpr hq2
    constructor
    · intro h0
      have hp2 : p2 = 0 := by
        have := (div_eq_zero_iff.mp h0).resolve_right hq2Q
        exact_mod_cast this
      simp [divideValues, hp2]
    · intro h0
      have hp2 : p2 ≠ 0 := by
        intro h
        apply h0
        rw [h]
        simp
      obtain ⟨hnorm, hrat⟩ := normPair_spec (n1 * q2) p2 hp2
      refine ⟨_, by simp [divideValues, hp2], ?_, hnorm⟩
      rw [hrat]
      congr 1
      have hp2Q : (p2 : ℚ) ≠ 0 := Int.cast_ne_zero.mpr hp2
      field_simp
      try push_cast
      try ring
  · constructor
    · intro h0
      have hn2 : n2 = 0 := by exact_mod_cast h0
      simp [divideValues, hn2]
    · intro h0
      have hn2 : n2 ≠ 0 := fun h => h0 (by rw [h]; simp)
      obtain ⟨hnorm, hrat⟩ := normPair_spec p1 (q1 * n2) (mul_ne_zero hq1 hn2)
      refine ⟨_, by simp [divideValues, hn2], ?_, hnorm⟩
      rw [hrat]
      congr 1
      have hq1Q : (q1 : ℚ) ≠ 0 := Int.cast_ne_zero.mpr hq1
      have hn2Q : (n2 : ℚ) ≠ 0 := Int.cast_ne_zero.mpr hn2
      field_simp
      try push_cast
      try ring
  · have hq2Q : (q2 : ℚ) ≠ 0 := Int.cast_ne_zero.mpr hq2
    constructor
    · intro h0
      have hp2 : p2 = 0 := by
        have := (div_eq_zero_iff.mp h0).resolve_right hq2Q
        exact_mod_cast this
      simp [divideValues, hp2]
    · intro h0
      have hp2 : p2 ≠ 0 := by
        intro h
        apply h0
        rw [h]
        simp
      obtain ⟨hnorm, hrat⟩ := normPair_spec (p1 * q2) (q1 * p2) (mul_ne_zero hq1 hp2)
      refine ⟨_, by simp [divideValues, hp2], ?_, hnorm⟩
      rw [hrat]
      congr 1
      have hq1Q : (q1 : ℚ) ≠ 0 := Int.cast_ne_zero.mpr hq1
      have hp2Q : (p2 : ℚ) ≠ 0 := Int.cast_ne_zero.mpr hp2
      field_simp
      try push_cast
      try ring

/-- Correctness of the variadic left-fold loop: if the binary operation
computes `g` on rationals (under a side condition `P` on each right
operand), the fold computes the left fold of `g`. -/
theorem foldValues_spec (f : Value → Value → Except String Value)
    (g : ℚ → ℚ → ℚ) (P : ℚ → Prop)
    (hf : ∀ v w qv qw, toRat v = some qv → toRat w = some qw → P qw →
        ∃ u, f v w = .ok u ∧ toRat u = some (g qv qw) ∧ Normalized u)
    (vs : List Value) (qs : List ℚ)
    (hvs : List.Forall₂ (fun w r => toRat w = some r) vs qs) :
    ∀ (v : Value) (qv : ℚ), toRat v = some qv → (∀ r ∈ qs, P r) →
      ∃ u, foldValues f v vs = .ok u ∧ toRat u = some (qs.foldl g qv) := by
  induction hvs with
  | nil => exact fun v qv hv _ => ⟨v, rfl, hv⟩
  | cons hw hrest ih =>
      intro v qv hv hP
      obtain ⟨u, hu, hur, _⟩ :=
        hf v _ qv _ hv hw (hP _ (List.mem_cons_self _ _))
      obtain ⟨u2, hu2, hu2r⟩ :=
        ih u _ hur (fun r hr => hP r (List.mem_cons_of_mem _ hr))
      exact ⟨u2, by simp only [foldValues, hu, hu2], hu2r⟩

/-- Claim C2 (amended): every Rational produced by the four arithmetic
helpers satisfies q>1 and gcd(|p|,q)=1, but evaluating a RationalNum
literal and quoting a rational syntax node hand the stored
numerator/denominator through unchanged, so for those two producers the
invariant holds only when the input syntax already satisfies it. -/
theorem claim_C2 :
    (∀ v w qv qw, toRat v = some qv → toRat w = some qw →
      (∃ u, addValues v w = .ok u ∧ Normalized u) ∧
      (∃ u, subtractValues v w = .ok u ∧ Normalized u) ∧
      (∃ u, multiplyValues v w = .ok u ∧ Normalized u) ∧
      (qw ≠ 0 → ∃ u, divideValues v w = .ok u ∧ Normalized u)) ∧
    (∀ fuel p q env st,
      eval (fuel + 1) (.RationalNum p q) env st = .ok (.rational p q, st)) ∧
    (∀ p q, stxToValue (.rat p q) = .rational p q) := by
  refine ⟨fun v w qv qw hv hw => ⟨?_, ?_, ?_, ?_⟩, fun _ _ _ _ _ => rfl, fun _ _ => rfl⟩
  · obtain ⟨u, h1, _, h3⟩ := addValues_ok v w qv qw hv hw
    exact ⟨u, h1, h3⟩
  · obtain ⟨u, h1, _, h3⟩ := subtractValues_ok v w qv qw hv hw
    exact ⟨u, h1, h3⟩
  · obtain ⟨u, h1, _, h3⟩ := multiplyValues_ok v w qv qw hv hw
    exact ⟨u, h1, h3⟩
  · intro h0
    obtain ⟨u, h1, _, h3⟩ := (divideValues_spec v w qv qw hv hw).2 h0
    exact ⟨u, h1, h3⟩

/-- Witness for C2 at concrete inputs: 1/2 + 1/3 produces a normalized
value. -/
theorem claim_C2_witness :
    ∃ u, addValues (.rational 1 2) (.rational 1 3) = .ok u ∧ Normalized u :=
  (claim_C2.1 (.rational 1 2) (.rational 1 3) (1 / 2) (1 / 3)
    (by simp [toRat]) (by simp [toRat])).1

/-- Counterexample to C2 as stated: evaluating the RationalNum literal
2/4 returns Rational(2,4), which violates gcd(|p|,q)=1. -/
theorem claim_C2_counterexample :
    eval 1 (.RationalNum 2 4) [] [] = .ok (.rational 2 4, []) ∧
    ¬ Normalized (.rational 2 4) := by
  refine ⟨rfl, fun h => ?_⟩
  have h2 : Int.gcd 2 4 = 1 := h.2
  exact absurd h2 (by decide)

/-- Claim C3: binary division of Integer/Rational operands raises
"Division by zero" exactly when the divisor denotes 0 (its numerator is
0), and otherwise returns the normalized exact quotient; in particular
3/6 is 1/2 and (-3)/6 is -1/2 with the sign on the numerator. -/
theorem claim_C3 :
    (∀ v w qv qw, toRat v = some qv → toRat w = some qw →
      (qw = 0 → divideValues v w = .error "Division by zero") ∧
      (qw ≠ 0 → ∃ u, divideValues v w = .ok u ∧
          toRat u = some (qv / qw) ∧ Normalized u)) ∧
    divideValues (.integer 3) (.integer 6) = .ok (.rational 1 2) ∧
    divideValues (.integer (-3)) (.integer 6) = .ok (.rational (-1) 2) :=
  ⟨divideValues_spec, rfl, rfl⟩

/-- Witness for C3: dividing by Integer 0 raises "Division by zero", and
10/4 divides out the gcd. -/
theorem claim_C3_witness :
    divideValues (.integer 1) (.integer 0) = .error "Division by zero" ∧
    (∃ u, divideValues (.integer 10) (.integer 4) = .ok u ∧
        toRat u = some ((10 : ℚ) / 4) ∧ Normalized u) := by
  constructor
  · exact (claim_C3.1 (.integer 1) (.integer 0) 1 0
      (by simp [toRat]) (by simp [toRat])).1 rfl
  · have h := (claim_C3.1 (.integer 10) (.integer 4) 10 4
      (by simp [toRat]) (by simp [toRat])).2 (by decide)
    simpa using h

/-- Claim C4: the variadic arithmetic evalRators — `(+)` is 0 and `(*)`
is 1; `(-)` and `(/)` on no arguments raise an error; one argument
negates (resp. takes the reciprocal of) it; two or more arguments
left-fold the binary operation. -/
theorem claim_C4 :
    plusVarRator [] = .ok (.integer 0) ∧
    multVarRator [] = .ok (.integer 1) ∧
    minusVarRator [] = .error "Wrong number of arguments for -" ∧
    divVarRator [] = .error "Wrong number of arguments for /" ∧
    (∀ n : ℤ, minusVarRator [.integer n] = .ok (.integer (-n))) ∧
    (∀ p q : ℤ, minusVarRator [.rational p q] = .ok (.rational (-p) q)) ∧
    (∀ v qv, toRat v = some qv →
      (qv = 0 → divVarRator [v] = .error "Division by zero") ∧
      (qv ≠ 0 → ∃ u, divVarRator [v] = .ok u ∧ toRat u = some (1 / qv))) ∧
    (∀ v qv vs qs, toRat v = some qv →
      List.Forall₂ (fun w r => toRat w = some r) vs qs →
      ∃ u, plusVarRator (v :: vs) = .ok u ∧
        toRat u = some (qs.foldl (· + ·) qv)) ∧
    (∀ v qv vs qs, toRat v = some qv →
      List.Forall₂ (fun w r => toRat w = some r) vs qs →
      ∃ u, multVarRator (v :: vs) = .ok u ∧
        toRat u = some (qs.foldl (· * ·) qv)) ∧
    (∀ v qv w qw vs qs, toRat v = some qv → toRat w = some qw →
      List.Forall₂ (fun x r => toRat x = some r) vs qs →
      ∃ u, minusVarRator (v :: w :: vs) = .ok u ∧
        toRat u = some ((qw :: qs).foldl (· - ·) qv)) ∧
    (∀ v qv w qw vs qs, toRat v = some qv → toRat w = some qw →
      List.Forall₂ (fun x r => toRat x = some r) vs qs →
      qw ≠ 0 → (∀ r ∈ qs, r ≠ 0) →
      ∃ u, divVarRator (v :: w :: vs) = .ok u ∧
        toRat u = some ((qw :: qs).foldl (· / ·) qv)) := by
  refine ⟨rfl, rfl, rfl, rfl, fun _ => rfl, fun _ _ => rfl, ?_, ?_, ?_, ?_, ?_⟩
  · intro v qv hv
    have hone : toRat (.integer 1) = some 1 := by simp [toRat]
    constructor
    · intro h0
      exact (divideValues_spec (.integer 1) v 1 qv hone hv).1 h0
    · intro h0
      obtain ⟨u, h1, h2, _⟩ := (divideValues_spec (.integer 1) v 1 qv hone hv).2 h0
      exact ⟨u, h1, by rw [h2, one_div]⟩
  · intro v qv vs qs hv hvs
    have hf : ∀ a b qa qb, toRat a = some qa → toRat b = some qb → True →
        ∃ u, addValues a b = .ok u ∧ toRat u = some (qa + qb) ∧ Normalized u :=
      fun a b qa qb ha hb _ => addValues_ok a b qa qb ha hb
    obtain ⟨u, h1, h2⟩ :=
      foldValues_spec addValues (· + ·) (fun _ => True) hf vs qs hvs v qv hv
        (fun _ _ => trivial)
    exact ⟨u, by simpa [plusVarRator] using h1, h2⟩
  · intro v qv vs qs hv hvs
    have hf : ∀ a b qa qb, toRat a = some qa → toRat b = some qb → True →
        ∃ u, multiplyValues a b = .ok u ∧ toRat u = some (qa * qb) ∧ Normalized u :=
      fun a b qa qb ha hb _ => multiplyValues_ok a b qa qb ha hb
    obtain ⟨u, h1, h2⟩ :=
      foldValues_spec multiplyValues (· * ·) (fun _ => True) hf vs qs hvs v qv hv
        (fun _ _ => trivial)
    exact ⟨u, by simpa [multVarRator] using h1, h2⟩
  · intro v qv w qw vs qs hv hw hvs
    have hf : ∀ a b qa qb, toRat a = some qa → toRat b = some qb → True →
        ∃ u, subtractValues a b = .ok u ∧ toRat u = some (qa - qb) ∧ Normalized u :=
      fun a b qa qb ha hb _ => subtractValues_ok a b qa qb ha hb
    obtain ⟨u, h1, h2⟩ :=
      foldValues_spec subtractValues (· - ·) (fun _ => True) hf (w :: vs) (qw :: qs)
        (List.Forall₂.cons hw hvs) v qv hv (fun _ _ => trivial)
    exact ⟨u, by simpa [minusVarRator] using h1, h2⟩
  · intro v qv w qw vs qs hv hw hvs hqw hqs
    have hf : ∀ a b qa qb, toRat a = some qa → toRat b = some qb → qb ≠ 0 →
        ∃ u, divideValues a b = .ok u ∧ toRat u = some (qa / qb) ∧ Normalized u :=
      fun a b qa qb ha hb hb0 => (divideValues_spec a b qa qb ha hb).2 hb0
    obtain ⟨u, h1, h2⟩ :=
      foldValues_spec divideValues (· / ·) (fun r => r ≠ 0) hf (w :: vs) (qw :: qs)
        (List.Forall₂.cons hw hvs) v qv hv
        (by
          intro r hr
          rcases List.mem_cons.mp hr with h | h
          · rw [h]; exact hqw
          · exact hqs r h)
    exact ⟨u, by simpa [divVarRator] using h1, h2⟩

/-- Witness for C4: (- 10 3 2) denotes 5 and (/ 3) denotes 1/3. -/
theorem claim_C4_witness :
    (∃ u, minusVarRator [.integer 10, .integer 3, .integer 2] = .ok u ∧
        toRat u = some (([(3 : ℚ), 2]).foldl (· - ·) 10)) ∧
    (∃ u, divVarRator [.integer 3] = .ok u ∧ toRat u = some (1 / (3 : ℚ))) := by
  constructor
  · exact claim_C4.2.2.2.2.2.2.2.2.2.1 (.integer 10) 10 (.integer 3) 3
      [.integer 2] [2] (by simp [toRat]) (by simp [toRat])
      (List.Forall₂.cons (by simp [toRat]) List.Forall₂.nil)
  · exact ((claim_C4.2.2.2.2.2.2.1 (.integer 3) 3 (by simp [toRat])).2 (by decide))

/-- Unfolding: the loop at exponent 0 returns the accumulator. -/
theorem exptLoop_zero (result b : ℤ) : exptLoop result b 0 = .ok result := by
  rw [exptLoop.eq_def]
  rfl

/-- Unfolding of one loop iteration at an odd exponent. -/
theorem exptLoop_odd (result b : ℤ) (exp : ℕ) (hm : exp % 2 = 1) :
    exptLoop result b exp =
      (if intMax < result * b ∨ result * b < intMin then
         (.error "Integer overflow in expt" : Except String ℤ)
       else if (intMax < b * b ∨ b * b < intMin) ∧ 1 < exp then
         .error "Integer overflow in expt"
       else exptLoop (result * b) (b * b) (exp / 2)) := by
  have h0 : exp ≠ 0 := by omega
  rw [exptLoop.eq_def]
  simp [h0, hm]

/-- Unfolding of one loop iteration at a nonzero even exponent. -/
theorem exptLoop_even (result b : ℤ) (exp : ℕ) (hm : exp % 2 = 0) (h0 : exp ≠ 0) :
    exptLoop result b exp =
      (if (intMax < b * b ∨ b * b < intMin) ∧ 1 < exp then
         (.error "Integer overflow in expt" : Except String ℤ)
       else exptLoop result (b * b) (exp / 2)) := by
  have hm1 : exp % 2 ≠ 1 := by omega
  rw [exptLoop.eq_def]
  simp [h0, hm1]

/-- Powers of an integer at least 1 stay at least 1. -/
theorem one_le_pow_int {c : ℤ} (hc : 1 ≤ c) (k : ℕ) : 1 ≤ c ^ k := by
  induction k with
  | zero => simp
  | succ m ih =>
      rw [pow_succ]
      nlinarith

/-- An integer at least 1 is at most any of its positive powers. -/
theorem le_self_pow_int {c : ℤ} (hc : 1 ≤ c) {k : ℕ} (hk : k ≠ 0) : c ≤ c ^ k := by
  obtain ⟨m, rfl⟩ := Nat.exists_eq_succ_of_ne_zero hk
  rw [pow_succ]
  have h := one_le_pow_int hc m
  nlinarith

/-- The square of a nonzero integer is at least 1. -/
theorem one_le_sq_int {b : ℤ} (hb : b ≠ 0) : 1 ≤ b * b := by
  have h1 := Int.one_le_abs hb
  nlinarith [abs_mul_abs_self b]

/-- An integer square exceeding INT_MAX in fact exceeds 2^31 (no integer
square equals 2^31). -/
theorem sq_gt_of_gt_intMax {b : ℤ} (h : intMax < b * b) :
    (2147483648 : ℤ) < b * b := by
  simp only [intMax] at h
  have h46 : 46341 ≤ b ∨ b ≤ -46341 := by
    by_contra hc
    push_neg at hc
    obtain ⟨hb1, hb2⟩ := hc
    have hnn : 0 ≤ (46340 - b) * (46340 + b) := mul_nonneg (by omega) (by omega)
    nlinarith
  rcases h46 with h46 | h46
  · nlinarith
  · have h46n : 46341 ≤ -b := by omega
    nlinarith

/-- A product with a factor above 2^31 and a nonzero cofactor lies outside
the 32-bit signed range. -/
theorem out_of_big {r P : ℤ} (hr : r ≠ 0) (hP : 2147483648 < P) :
    ¬(intMin ≤ r * P ∧ r * P ≤ intMax) := by
  simp only [intMin, intMax]
  rintro ⟨hA, hB⟩
  have hP0 : (0 : ℤ) ≤ P := by linarith
  rcases lt_or_gt_of_ne hr with h | h
  · have hle : r * P ≤ -1 * P := mul_le_mul_of_nonneg_right (by omega) hP0
    linarith
  · have hle : 1 * P ≤ r * P := mul_le_mul_of_nonneg_right (by omega) hP0
    linarith

/-- A value outside the 32-bit range stays outside it after multiplication
by a factor at least 1. -/
theorem out_of_mono {M P : ℤ} (hP : 1 ≤ P)
    (hM : intMax < M ∨ M < intMin) :
    ¬(intMin ≤ M * P ∧ M * P ≤ intMax) := by
  simp only [intMin, intMax] at hM ⊢
  rintro ⟨hA, hB⟩
  rcases hM with h | h
  · have hle : M * 1 ≤ M * P := mul_le_mul_of_nonneg_left hP (by linarith)
    rw [mul_one] at hle
    linarith
  · have hle : M * P ≤ M * 1 := mul_le_mul_of_nonpos_left hP (by linarith)
    rw [mul_one] at hle
    linarith

/-- Correctness of exponentiation by squaring with overflow checks: from
an in-range accumulator (nonzero unless the base is zero), the loop
returns exactly `result * b ^ exp` when that is 32-bit representable and
raises "Integer overflow in expt" otherwise. -/
theorem exptLoop_correct (exp : ℕ) :
    ∀ result b : ℤ, intMin ≤ result → result ≤ intMax →
      (result ≠ 0 ∨ b = 0) →
      exptLoop result b exp =
        if intMin ≤ result * b ^ exp ∧ result * b ^ exp ≤ intMax
        then .ok (result * b ^ exp)
        else .error "Integer overflow in expt" := by
  induction exp using Nat.strong_induction_on with
  | _ exp ih =>
    intro result b h1 h2 h3
    by_cases h0 : exp = 0
    · subst h0
      rw [exptLoop_zero, pow_zero, mul_one, if_pos ⟨h1, h2⟩]
    · have hk_lt : exp / 2 < exp := Nat.div_lt_self (Nat.pos_of_ne_zero h0) (by omega)
      rcases Nat.mod_two_eq_zero_or_one exp with hm | hm
      · -- even exponent: exp = 2 * (exp / 2) with exp / 2 ≥ 1
        have hexp2 : 2 * (exp / 2) = exp := by omega
        have hpowsplit : b ^ exp = (b * b) ^ (exp / 2) := by
          conv_lhs => rw [← hexp2]
          rw [pow_mul, pow_two]
        have htgt : result * (b * b) ^ (exp / 2) = result * b ^ exp := by
          rw [hpowsplit]
        rw [exptLoop_even result b exp hm h0]
        by_cases hbov : (intMax < b * b ∨ b * b < intMin) ∧ 1 < exp
        · rw [if_pos hbov]
          obtain ⟨hbo, _⟩ := hbov
          have hbb : intMax < b * b := by
            rcases hbo with h | h
            · exact h
            · exfalso
              have h00 : (0 : ℤ) ≤ b * b := mul_self_nonneg b
              simp only [intMin] at h
              omega
          have hbig := sq_gt_of_gt_intMax hbb
          have hbne : b ≠ 0 := by
            intro hb
            rw [hb, mul_zero] at hbb
            simp only [intMax] at hbb
            omega
          have hres : result ≠ 0 := h3.resolve_right hbne
          have hPbig : (2147483648 : ℤ) < (b * b) ^ (exp / 2) :=
            lt_of_lt_of_le hbig (le_self_pow_int (by linarith) (by omega))
          rw [if_neg (by rw [← htgt]; exact out_of_big hres hPbig)]
        · rw [if_neg hbov]
          have hinv : result ≠ 0 ∨ b * b = 0 := by
            rcases h3 with hr | hb
            · exact Or.inl hr
            · exact Or.inr (by rw [hb, mul_zero])
          rw [ih (exp / 2) hk_lt result (b * b) h1 h2 hinv, htgt]
      · -- odd exponent: exp = 2 * (exp / 2) + 1
        have hexp1 : 2 * (exp / 2) + 1 = exp := by omega
        have hpowsplit : b ^ exp = (b * b) ^ (exp / 2) * b := by
          conv_lhs => rw [← hexp1]
          rw [pow_succ, pow_mul, pow_two]
        have htgt : result * b * (b * b) ^ (exp / 2) = result * b ^ exp := by
          rw [hpowsplit]
          ring
        rw [exptLoop_odd result b exp hm]
        by_cases hov : intMax < result * b ∨ result * b < intMin
        · rw [if_pos hov]
          have hbne : b ≠ 0 := by
            intro hb
            rw [hb, mul_zero] at hov
            simp only [intMax, intMin] at hov
            omega
          have hP1 : (1 : ℤ) ≤ (b * b) ^ (exp / 2) :=
            one_le_pow_int (one_le_sq_int hbne) _
          rw [if_neg (by rw [← htgt]; exact out_of_mono hP1 hov)]
        · rw [if_neg hov]
          push_neg at hov
          obtain ⟨hov1, hov2⟩ := hov
          by_cases hbov : (intMax < b * b ∨ b * b < intMin) ∧ 1 < exp
          · rw [if_pos hbov]
            obtain ⟨hbo, hexp_gt⟩ := hbov
            have hbb : intMax < b * b := by
              rcases hbo with h | h
              · exact h
              · exfalso
                have h00 : (0 : ℤ) ≤ b * b := mul_self_nonneg b
                simp only [intMin] at h
                omega
            have hbig := sq_gt_of_gt_intMax hbb
            have hbne : b ≠ 0 := by
              intro hb
              rw [hb, mul_zero] at hbb
              simp only [intMax] at hbb
              omega
            have hres1 : result * b ≠ 0 :=
              mul_ne_zero (h3.resolve_right hbne) hbne
            have hPbig : (2147483648 : ℤ) < (b * b) ^ (exp / 2) :=
              lt_of_lt_of_le hbig (le_self_pow_int (by linarith) (by omega))
            rw [if_neg (by rw [← htgt]; exact out_of_big hres1 hPbig)]
          · rw [if_neg hbov]
            have hinv : result * b ≠ 0 ∨ b * b = 0 := by
              by_cases hb : b = 0
              · exact Or.inr (by rw [hb, mul_zero])
              · exact Or.inl (mul_ne_zero (h3.resolve_right hb) hb)
            rw [ih (exp / 2) hk_lt (result * b) (b * b) hov2 hov1 hinv, htgt]

/-- Claim C5: `expt` is Integer^Integer only; a negative exponent and 0^0
are rejected with their messages; otherwise the result is exactly the
integer power when it fits in the 32-bit signed range and "Integer
overflow in expt" when it does not; (expt 2 10) = 1024. -/
theorem claim_C5 :
    (∀ b e : ℤ, e < 0 → exptRator (.integer b) (.integer e) =
        .error "Negative exponent not supported for integers") ∧
    exptRator (.integer 0) (.integer 0) = .error "0^0 is undefined" ∧
    (∀ (b : ℤ) (e : ℕ), ¬(b = 0 ∧ e = 0) →
      exptRator (.integer b) (.integer (e : ℤ)) =
        if intMin ≤ b ^ e ∧ b ^ e ≤ intMax then .ok (.integer (b ^ e))
        else .error "Integer overflow in expt") ∧
    exptRator (.integer 2) (.integer 10) = .ok (.integer 1024) ∧
    (∀ p q n : ℤ, exptRator (.rational p q) (.integer n) = .error "Wrong typename") ∧
    (∀ n p q : ℤ, exptRator (.integer n) (.rational p q) = .error "Wrong typename") := by
  have hmain : ∀ (b : ℤ) (e : ℕ), ¬(b = 0 ∧ e = 0) →
      exptRator (.integer b) (.integer (e : ℤ)) =
        if intMin ≤ b ^ e ∧ b ^ e ≤ intMax then .ok (.integer (b ^ e))
        else .error "Integer overflow in expt" := by
    intro b e hne
    simp only [exptRator]
    rw [if_neg (not_lt.mpr (Int.natCast_nonneg e))]
    rw [if_neg (fun h => hne ⟨h.1, by exact_mod_cast h.2⟩)]
    rw [Int.toNat_natCast]
    rw [exptLoop_correct e 1 b (by decide) (by decide) (Or.inl one_ne_zero)]
    rw [one_mul]
    by_cases hc : intMin ≤ b ^ e ∧ b ^ e ≤ intMax
    · rw [if_pos hc, if_pos hc]
      rfl
    · rw [if_neg hc, if_neg hc]
      rfl
  refine ⟨?_, rfl, hmain, ?_, fun _ _ _ => rfl, fun _ _ _ => rfl⟩
  · intro b e he
    simp only [exptRator]
    rw [if_pos he]
  · have h := hmain 2 10 (by simp)
    rw [if_pos (by decide)] at h
    exact h.trans (by norm_num)

/-- Witness for C5: (expt 3 4) = 81 and a negative exponent errors. -/
theorem claim_C5_witness :
    exptRator (.integer 3) (.integer 4) = .ok (.integer 81) ∧
    exptRator (.integer 2) (.integer (-1)) =
      .error "Negative exponent not supported for integers" := by
  constructor
  · have h := claim_C5.2.2.1 3 4 (by simp)
    rw [if_pos (by decide)] at h
    exact h.trans (by norm_num)
  · exact claim_C5.1 2 (-1) (by decide)

/-- Claim C6: `and` of no operands is `#t` and `or` of no operands is
`#f`; `and` evaluates left-to-right and stops with `#f` at the first
operand whose value is the boolean `#f` — the operands after it are
arbitrary and never evaluated — while any other value continues the loop
(the last one is returned); dually `or` returns the first value that is
not the boolean `#f`, skipping the remaining operands.  Only the literal
boolean `#f` is falsy.  Scenarios: (and 1 2 3) = 3, (and 1 #f 3) = #f,
(or #f #f 7) = 7, (or #f #f) = #f. -/
theorem claim_C6 :
    (∀ fuel env st, eval (fuel + 1) (.AndVar []) env st = .ok (.boolean true, st)) ∧
    (∀ fuel env st, eval (fuel + 1) (.OrVar []) env st = .ok (.boolean false, st)) ∧
    (∀ fuel (x : Expr) (rest : List Expr) env st st1,
      eval fuel x env st = .ok (.boolean false, st1) →
      eval (fuel + 1) (.AndVar (x :: rest)) env st = .ok (.boolean false, st1)) ∧
    (∀ fuel (x : Expr) env st st1 (v : Value),
      eval fuel x env st = .ok (v, st1) → v ≠ .boolean false →
      eval (fuel + 1) (.AndVar [x]) env st = .ok (v, st1)) ∧
    (∀ fuel (x r : Expr) (rs : List Expr) env st st1 (v : Value),
      eval fuel x env st = .ok (v, st1) → v ≠ .boolean false →
      eval (fuel + 1) (.AndVar (x :: r :: rs)) env st =
        eval (fuel + 1) (.AndVar (r :: rs)) env st1) ∧
    (∀ fuel (x : Expr) (rest : List Expr) env st st1 (v : Value),
      eval fuel x env st = .ok (v, st1) → v ≠ .boolean false →
      eval (fuel + 1) (.OrVar (x :: rest)) env st = .ok (v, st1)) ∧
    (∀ fuel (x : Expr) (rest : List Expr) env st st1,
      eval fuel x env st = .ok (.boolean false, st1) →
      eval (fuel + 1) (.OrVar (x :: rest)) env st =
        eval (fuel + 1) (.OrVar rest) env st1) ∧
    eval 10 (.AndVar [.Fixnum 1, .Fixnum 2, .Fixnum 3]) [] [] = .ok (.integer 3, []) ∧
    eval 10 (.AndVar [.Fixnum 1, .False, .Fixnum 3]) [] [] = .ok (.boolean false, []) ∧
    eval 10 (.OrVar [.False, .False, .Fixnum 7]) [] [] = .ok (.integer 7, []) ∧
    eval 10 (.OrVar [.False, .False]) [] [] = .ok (.boolean false, []) := by
  refine ⟨fun _ _ _ => rfl, fun _ _ _ => rfl, ?_, ?_, ?_, ?_, ?_, rfl, rfl, rfl, rfl⟩
  · intro fuel x rest env st st1 h
    simp only [eval, andLoop, h]
  · intro fuel x env st st1 v h hne
    simp only [eval, andLoop, h]
  · intro fuel x r rs env st st1 v h hne
    simp only [eval, andLoop, h]
  · intro fuel x rest env st st1 v h hne
    simp only [eval, orLoop, h]
  · intro fuel x rest env st st1 h
    simp only [eval, orLoop, h]

/-- Witness for C6: a false operand short-circuits `and` past an
expression that would raise an error, and `or` returns the first truthy
value. -/
theorem claim_C6_witness :
    eval 2 (.AndVar [.False, .Var "boom"]) [] [] = .ok (.boolean false, []) ∧
    eval 2 (.OrVar [.Fixnum 7, .Var "boom"]) [] [] = .ok (.integer 7, []) := by
  constructor
  · exact claim_C6.2.2.1 1 .False [.Var "boom"] [] [] [] rfl
  · exact claim_C6.2.2.2.2.2.1 1 (.Fixnum 7) [.Var "boom"] [] [] []
      (.integer 7) rfl (by simp)

/-- Claim C7: `cond` scans its clauses in order; a clause headed by the
parsed expression `Var("else")` is taken unconditionally (its body runs
like a `begin`); otherwise the test is evaluated — any value other than
the boolean `#f` takes the clause, returning the test value itself for a
single-element clause and the body's last value otherwise, while `#f`
moves on to the next clause; with no matching clause the result is Void.
Scenarios from the spec are checked concretely. -/
theorem claim_C7 :
    (∀ fuel env st, eval (fuel + 1) (.Cond []) env st = .ok (.void, st)) ∧
    (∀ fuel (body : List Expr) (rest : List (List Expr)) env st,
      eval (fuel + 1) (.Cond ((.Var "else" :: body) :: rest)) env st =
        eval (fuel + 1) (.Begin body) env st) ∧
    (∀ fuel (test : Expr) (rest : List (List Expr)) env st st1 (v : Value),
      isElseVar test = false →
      eval fuel test env st = .ok (v, st1) → v ≠ .boolean false →
      eval (fuel + 1) (.Cond ([test] :: rest)) env st = .ok (v, st1)) ∧
    (∀ fuel (test b0 : Expr) (brest : List Expr) (rest : List (List Expr)) env st st1
      (v : Value),
      isElseVar test = false →
      eval fuel test env st = .ok (v, st1) → v ≠ .boolean false →
      eval (fuel + 1) (.Cond ((test :: b0 :: brest) :: rest)) env st =
        eval (fuel + 1) (.Begin (b0 :: brest)) env st1) ∧
    (∀ fuel (test : Expr) (body : List Expr) (rest : List (List Expr)) env st st1,
      isElseVar test = false →
      eval fuel test env st = .ok (.boolean false, st1) →
      eval (fuel + 1) (.Cond ((test :: body) :: rest)) env st =
        eval (fuel + 1) (.Cond rest) env st1) ∧
    eval 10 (.Cond [[.Equal (.Fixnum 1) (.Fixnum 2), .Quote (.sym "a")],
                    [.Equal (.Fixnum 2) (.Fixnum 2), .Quote (.sym "b")],
                    [.Var "else", .Quote (.sym "c")]]) [] []
      = .ok (.symbol "b", []) ∧
    eval 10 (.Cond [[.Var "else", .Quote (.sym "c")]]) [] [] = .ok (.symbol "c", []) ∧
    eval 10 (.Cond [[.Equal (.Fixnum 1) (.Fixnum 2), .Quote (.sym "a")]]) [] []
      = .ok (.void, []) := by
  refine ⟨fun _ _ _ => rfl, ?_, ?_, ?_, ?_, rfl, rfl, rfl⟩
  · intro fuel body rest env st
    simp [eval, condLoop, isElseVar]
  · intro fuel test rest env st st1 v hni h hne
    simp only [eval, condLoop, hni, Bool.false_eq_true, if_false, h]
  · intro fuel test b0 brest rest env st st1 v hni h hne
    simp only [eval, condLoop, hni, Bool.false_eq_true, if_false, h]
  · intro fuel test body rest env st st1 hni h
    simp only [eval, condLoop, hni, Bool.false_eq_true, if_false, h]

/-- Witness for C7: a false test (here the parse of (= 1 2)) skips its
clause. -/
theorem claim_C7_witness :
    eval 3 (.Cond [[.Equal (.Fixnum 1) (.Fixnum 2), .Quote (.sym "a")], [.Fixnum 9]]) [] []
      = .ok (.integer 9, []) := by
  have h := claim_C7.2.2.2.2.1 2 (.Equal (.Fixnum 1) (.Fixnum 2))
    [.Quote (.sym "a")] [[.Fixnum 9]] [] [] [] rfl rfl
  rw [h]
  exact claim_C7.2.2.1 2 (.Fixnum 9) [] [] [] [] (.integer 9) rfl rfl (by simp)

/-- Claim C9: `let` evaluates every right-hand side in the outer
environment before extending it (an earlier binding of the same let is
invisible to a later right-hand side), then evaluates the body under all
bindings; `letrec` first installs null placeholder cells for all bound
names, evaluates each right-hand side in the extended environment writing
the result through `modify`, then evaluates the body — so mutually
recursive even?/odd? closures work; reading a placeholder before its
assignment is "Undefined variable". -/
theorem claim_C9 :
    (∀ fuel (binds : List (String × Expr)) (body : Expr) env st,
      eval (fuel + 1) (.Let binds body) env st =
        match evalList (eval fuel) (binds.map Prod.snd) env st with
        | .error m => .error m
        | .ok (vals, st1) =>
            let p := extendAll (binds.map Prod.fst) vals env st1
            eval fuel body p.1 p.2) ∧
    (∀ fuel (binds : List (String × Expr)) (body : Expr) env st,
      eval (fuel + 1) (.Letrec binds body) env st =
        let p := extendNulls (binds.map Prod.fst) env st
        match letrecRhs (eval fuel) binds p.1 p.2 with
        | .error m => .error m
        | .ok st2 => eval fuel body p.1 st2) ∧
    (eval 10 (.Let [("x", .Fixnum 1), ("y", .Var "x")] (.Var "y"))
        (extend "x" (some (.integer 5)) [] []).1
        (extend "x" (some (.integer 5)) [] []).2).map Prod.fst
      = .ok (.integer 5) ∧
    eval 10 (.Let [("x", .Fixnum 1), ("y", .Var "x")] (.Var "y")) [] []
      = .error "Undefined variable: x" ∧
    (eval 10 (.Let [("x", .Fixnum 1), ("y", .Fixnum 2)]
        (.Plus (.Var "x") (.Var "y"))) [] []).map Prod.fst
      = .ok (.integer 3) ∧
    (eval 100 evenOddProgram [] []).map Prod.fst = .ok (.boolean true) ∧
    eval 10 (.Letrec [("a", .Var "b"), ("b", .Fixnum 1)] (.Var "a")) [] []
      = .error "Undefined variable: b" :=
  ⟨fun _ _ _ _ _ => rfl, fun _ _ _ _ _ => rfl, rfl, rfl, rfl, rfl, rfl⟩

/-- Claim C1 (the code lacks the claimed behaviour): evaluating the Var
of an unbound primitive name does reify it as Procedure({}, Var(name),
env), but Apply has no re-dispatch arm for it — applying the reified `+`
to 1 and 2 trips the `args.size() == parameters.size()` check (2 ≠ 0) and
raises "Wrong number of arguments" instead of producing 3. -/
theorem claim_C1 :
    eval 1 (.Var "+") [] [] = .ok (.procedure [] (.Var "+") [], []) ∧
    eval 20 (.Apply (.Var "+") [.Fixnum 1, .Fixnum 2]) [] []
      = .error "Wrong number of arguments" ∧
    eval 20 (.Let [("f", .Var "+")] (.Apply (.Var "f") [.Fixnum 1, .Fixnum 2])) [] []
      = .error "Wrong number of arguments" :=
  ⟨rfl, rfl, rfl⟩


/-- Claim C8: for a list whose head symbol is an unshadowed primitive the
parser parses the arguments and dispatches through the primitive table;
on that path the fixed-arity primitives (modulo, expt, cons, set-car!,
set-cdr!, eq? at 2; car, cdr, not, the type predicates, display at 1;
void, exit at 0) raise a RuntimeError on any other argument count while
list/and/or accept any count — `okB ∘ parsePrimApp` coincides with the
spec's arity table — and each arithmetic/comparison primitive builds its
binary node on exactly two arguments and its variadic node, without
error, on any other count. -/
theorem claim_C8 :
    (∀ (op : String) (t : ExprType) (ps : List Expr),
      okB (parsePrimApp op t ps) = specArity t ps.length) ∧
    (∀ fuel (op : String) (t : ExprType) (args : List Stx) env st,
      find op env st = none → primLookup op = some t →
      parseStx (fuel + 1) (.list (.sym op :: args)) env st =
        match parseArgs (fun u => parseStx fuel u env st) args with
        | .error m => .error m
        | .ok params => parsePrimApp op t params) ∧
    parsePrimApp "cons" .E_CONS [.Fixnum 1]
      = .error "Wrong number of arguments for cons" ∧
    ((∀ (op : String) (a b : Expr), parsePrimApp op .E_PLUS [a, b] = .ok (.Plus a b)) ∧
     (∀ (op : String) (ps : List Expr), ps.length ≠ 2 →
        parsePrimApp op .E_PLUS ps = .ok (.PlusVar ps))) ∧
    ((∀ (op : String) (a b : Expr), parsePrimApp op .E_MINUS [a, b] = .ok (.Minus a b)) ∧
     (∀ (op : String) (ps : List Expr), ps.length ≠ 2 →
        parsePrimApp op .E_MINUS ps = .ok (.MinusVar ps))) ∧
    ((∀ (op : String) (a b : Expr), parsePrimApp op .E_MUL [a, b] = .ok (.Mult a b)) ∧
     (∀ (op : String) (ps : List Expr), ps.length ≠ 2 →
        parsePrimApp op .E_MUL ps = .ok (.MultVar ps))) ∧
    ((∀ (op : String) (a b : Expr), parsePrimApp op .E_DIV [a, b] = .ok (.Div a b)) ∧
     (∀ (op : String) (ps : List Expr), ps.length ≠ 2 →
        parsePrimApp op .E_DIV ps = .ok (.DivVar ps))) ∧
    ((∀ (op : String) (a b : Expr), parsePrimApp op .E_LT [a, b] = .ok (.Less a b)) ∧
     (∀ (op : String) (ps : List Expr), ps.length ≠ 2 →
        parsePrimApp op .E_LT ps = .ok (.LessVar ps))) ∧
    ((∀ (op : String) (a b : Expr), parsePrimApp op .E_LE [a, b] = .ok (.LessEq a b)) ∧
     (∀ (op : String) (ps : List Expr), ps.length ≠ 2 →
        parsePrimApp op .E_LE ps = .ok (.LessEqVar ps))) ∧
    ((∀ (op : String) (a b : Expr), parsePrimApp op .E_EQ [a, b] = .ok (.Equal a b)) ∧
     (∀ (op : String) (ps : List Expr), ps.length ≠ 2 →
        parsePrimApp op .E_EQ ps = .ok (.EqualVar ps))) ∧
    ((∀ (op : String) (a b : Expr), parsePrimApp op .E_GE [a, b] = .ok (.GreaterEq a b)) ∧
     (∀ (op : String) (ps : List Expr), ps.length ≠ 2 →
        parsePrimApp op .E_GE ps = .ok (.GreaterEqVar ps))) ∧
    ((∀ (op : String) (a b : Expr), parsePrimApp op .E_GT [a, b] = .ok (.Greater a b)) ∧
     (∀ (op : String) (ps : List Expr), ps.length ≠ 2 →
        parsePrimApp op .E_GT ps = .ok (.GreaterVar ps))) := by
  refine ⟨?_, ?_, rfl, ?_, ?_, ?_, ?_, ?_, ?_, ?_, ?_, ?_⟩
  · intro op t ps
    cases t <;> rcases ps with _ | ⟨a, _ | ⟨b, _ | ⟨c, rest⟩⟩⟩ <;> rfl
  · intro fuel op t args env st h1 h2
    simp only [parseStx, h1, h2, Option.isSome_none, Bool.false_eq_true, if_false]
  · refine ⟨fun _ _ _ => rfl, ?_⟩
    intro op ps hlen
    rcases ps with _ | ⟨a, _ | ⟨b, _ | ⟨c, rest⟩⟩⟩
    · rfl
    · rfl
    · exact absurd rfl hlen
    · rfl
  · refine ⟨fun _ _ _ => rfl, ?_⟩
    intro op ps hlen
    rcases ps with _ | ⟨a, _ | ⟨b, _ | ⟨c, rest⟩⟩⟩
    · rfl
    · rfl
    · exact absurd rfl hlen
    · rfl
  · refine ⟨fun _ _ _ => rfl, ?_⟩
    intro op ps hlen
    rcases ps with _ | ⟨a, _ | ⟨b, _ | ⟨c, rest⟩⟩⟩
    · rfl
    · rfl
    · exact absurd rfl hlen
    · rfl
  · refine ⟨fun _ _ _ => rfl, ?_⟩
    intro op ps hlen
    rcases ps with _ | ⟨a, _ | ⟨b, _ | ⟨c, rest⟩⟩⟩
    · rfl
    · rfl
    · exact absurd rfl hlen
    · rfl
  · refine ⟨fun _ _ _ => rfl, ?_⟩
    intro op ps hlen
    rcases ps with _ | ⟨a, _ | ⟨b, _ | ⟨c, rest⟩⟩⟩
    · rfl
    · rfl
    · exact absurd rfl hlen
    · rfl
  · refine ⟨fun _ _ _ => rfl, ?_⟩
    intro op ps hlen
    rcases ps with _ | ⟨a, _ | ⟨b, _ | ⟨c, rest⟩⟩⟩
    · rfl
    · rfl
    · exact absurd rfl hlen
    · rfl
  · refine ⟨fun _ _ _ => rfl, ?_⟩
    intro op ps hlen
    rcases ps with _ | ⟨a, _ | ⟨b, _ | ⟨c, rest⟩⟩⟩
    · rfl
    · rfl
    · exact absurd rfl hlen
    · rfl
  · refine ⟨fun _ _ _ => rfl, ?_⟩
    intro op ps hlen
    rcases ps with _ | ⟨a, _ | ⟨b, _ | ⟨c, rest⟩⟩⟩
    · rfl
    · rfl
    · exact absurd rfl hlen
    · rfl
  · refine ⟨fun _ _ _ => rfl, ?_⟩
    intro op ps hlen
    rcases ps with _ | ⟨a, _ | ⟨b, _ | ⟨c, rest⟩⟩⟩
    · rfl
    · rfl
    · exact absurd rfl hlen
    · rfl

/-- Witness for C8: the routing and the variadic fallback at concrete
inputs — (car 1) parses to a Car node, (+ 1 2 3) parses to PlusVar. -/
theorem claim_C8_witness :
    parseStx 2 (.list [.sym "car", .num 1]) [] [] = .ok (.Car (.Fixnum 1)) ∧
    parsePrimApp "+" .E_PLUS [.Fixnum 1, .Fixnum 2, .Fixnum 3]
      = .ok (.PlusVar [.Fixnum 1, .Fixnum 2, .Fixnum 3]) := by
  constructor
  · have h := claim_C8.2.1 1 "car" .E_CAR [.num 1] [] [] rfl rfl
    rw [h]
    rfl
  · exact claim_C8.2.2.2.1.2 "+" [.Fixnum 1, .Fixnum 2, .Fixnum 3] (by simp)

/-- Claim C10: eq? compares Integers by numeric value, Booleans by
boolean, Symbols by name, Null with Null and Void with Void are `#t`, and
every other combination falls back to pointer identity; hence (eq? x x)
is `#t` for any Integer/Boolean/Symbol/Null/Void value and two equal
Rationals held in distinct heap objects are `#f` under eq?. -/
theorem claim_C10 :
    (∀ (a b : ℕ) (n m : ℤ),
      isEqRator ⟨a, .integer n⟩ ⟨b, .integer m⟩ = .boolean (decide (n = m))) ∧
    (∀ (a b : ℕ) (x y : Bool),
      isEqRator ⟨a, .boolean x⟩ ⟨b, .boolean y⟩ = .boolean (decide (x = y))) ∧
    (∀ (a b : ℕ) (s t : String),
      isEqRator ⟨a, .symbol s⟩ ⟨b, .symbol t⟩ = .boolean (decide (s = t))) ∧
    (∀ a b : ℕ, isEqRator ⟨a, .null⟩ ⟨b, .null⟩ = .boolean true) ∧
    (∀ a b : ℕ, isEqRator ⟨a, .void⟩ ⟨b, .void⟩ = .boolean true) ∧
    (∀ r : VRef,
      (∃ n, r.val = .integer n) ∨ (∃ x, r.val = .boolean x) ∨
        (∃ s, r.val = .symbol s) ∨ r.val = .null ∨ r.val = .void →
      isEqRator r r = .boolean true) ∧
    (∀ (a1 a2 : ℕ) (p q : ℤ), a1 ≠ a2 →
      isEqRator ⟨a1, .rational p q⟩ ⟨a2, .rational p q⟩ = .boolean false) := by
  refine ⟨fun _ _ _ _ => rfl, fun _ _ _ _ => rfl, fun _ _ _ _ => rfl,
    fun _ _ => rfl, fun _ _ => rfl, ?_, ?_⟩
  · rintro ⟨a, val⟩ (⟨n, hv⟩ | ⟨x, hv⟩ | ⟨s, hv⟩ | hv | hv) <;>
      subst hv <;> simp [isEqRator]
  · intro a1 a2 p q h
    simp [isEqRator, h]

/-- Witness for C10: (eq? 5 5) across distinct objects is `#t` by value,
and numerically equal Rationals in distinct objects are `#f`. -/
theorem claim_C10_witness :
    isEqRator ⟨0, .integer 5⟩ ⟨0, .integer 5⟩ = .boolean true ∧
    isEqRator ⟨0, .rational 1 2⟩ ⟨1, .rational 1 2⟩ = .boolean false :=
  ⟨claim_C10.2.2.2.2.2.1 ⟨0, .integer 5⟩ (Or.inl ⟨5, rfl⟩),
   claim_C10.2.2.2.2.2.2 0 1 1 2 (by decide)⟩

end Scheme
